import Mathlib

/-!
Shallow embedding of the product-resolution and route-optimization core of the
smartaisle repository (src/services/productService.ts and the route screen in
src/unnamed/part_002), together with theorems settling the frozen claims.

Retailer HTTP responses and extracted markup fields are modelled by an explicit
environment; JavaScript numbers are modelled as rationals, with `none` standing
for `undefined` or `NaN` where a field can be absent or fail to parse.
-/

namespace SmartAisle

/-! ## JavaScript primitives used by the source -/

/-- Value of a run of decimal digit characters, as `parseInt` computes it. -/
def digitsToNat (ds : List Char) : ℕ :=
  ds.foldl (fun n c => 10 * n + (c.toNat - 48)) 0

/-- Characters of a string with surrounding whitespace removed. -/
def trimChars (cs : List Char) : List Char :=
  ((cs.dropWhile Char.isWhitespace).reverse.dropWhile Char.isWhitespace).reverse

/-- Models JS `String.prototype.trim` (kept as structural list recursion so
concrete inputs evaluate inside proofs). -/
def strTrim (s : String) : String :=
  String.mk (trimChars s.data)

/-- Models JS `String.prototype.toLowerCase` on the ASCII range the scraped
phrases use. -/
def strToLower (s : String) : String :=
  String.mk (s.data.map Char.toLower)

/-- `leadsWith pat cs`: the text `cs` starts with the pattern `pat`. -/
def leadsWith : List Char → List Char → Bool
  | [], _ => true
  | _ :: _, [] => false
  | p :: ps, c :: cs => p == c && leadsWith ps cs

/-- Substring occurrence on character lists. -/
def hasSubstrChars : List Char → List Char → Bool
  | [], pat => leadsWith pat []
  | c :: cs, pat => leadsWith pat (c :: cs) || hasSubstrChars cs pat

/-- Models JS `String.prototype.includes`. -/
def strContains (s pat : String) : Bool :=
  hasSubstrChars s.data pat.data

/-- Remove the first occurrence of `pat` from `cs`. -/
def removeFirstChars : List Char → List Char → List Char
  | [], _ => []
  | c :: cs, pat =>
    if leadsWith pat (c :: cs) then (c :: cs).drop pat.length
    else c :: removeFirstChars cs pat

/-- Models JS `String.prototype.replace(pat, "")` with a string pattern, which
removes only the first occurrence. -/
def removeFirst (s pat : String) : String :=
  String.mk (removeFirstChars s.data pat.data)

/-- Models JS `parseFloat`, restricted to optional-sign decimal literals
(leading whitespace skipped, trailing junk ignored; no exponent or Infinity
forms, which never arise in the scraped price/distance texts). `none` stands
for `NaN` (no parse). -/
def fracPart : List Char → List Char
  | '.' :: t => t.takeWhile (fun c => c.isDigit)
  | _ => []

/-- The non-negative magnitude denoted by integer digits and fraction digits. -/
def parseDigitsVal (intDs fracDs : List Char) : ℚ :=
  mkRat (digitsToNat intDs * 10 ^ fracDs.length + digitsToNat fracDs)
    (10 ^ fracDs.length)

def jsParseFloat (s : String) : Option ℚ :=
  let cs := s.data.dropWhile (fun c => c.isWhitespace)
  let neg : Bool := cs.head? == some '-'
  let body :=
    if cs.head? == some '-' || cs.head? == some '+' then cs.tail else cs
  let intDs := body.takeWhile (fun c => c.isDigit)
  let fracDs := fracPart (body.dropWhile (fun c => c.isDigit))
  if intDs = [] ∧ fracDs = [] then none
  else some (if neg then -(parseDigitsVal intDs fracDs) else parseDigitsVal intDs fracDs)

/-- Models the JS truthiness coercion `v || undefined` on a number that may be
`NaN` (`none`): both `NaN` and `0` are falsy and collapse to `undefined`. -/
def jsOrUndefined (v : Option ℚ) : Option ℚ :=
  match v with
  | none => none
  | some q => if q = 0 then none else some q

/-! ## Stable sort, modelling `Array.prototype.sort` with a comparator

`Array.prototype.sort` is stable (ES2019); a comparator `c` keeps `a` before
`b` exactly when `c(a,b) ≤ 0` (a `NaN` comparator result counts as `0`). We
model the induced Boolean relation `le a b` ("`a` may stay before `b`") and a
stable insertion sort. -/

def insertBy {α : Type} (le : α → α → Bool) (a : α) : List α → List α
  | [] => [a]
  | b :: l => if le a b then a :: b :: l else b :: insertBy le a l

def sortBy {α : Type} (le : α → α → Bool) : List α → List α
  | [] => []
  | a :: l => insertBy le a (sortBy le l)

theorem insertBy_perm {α : Type} (le : α → α → Bool) (a : α) (l : List α) :
    List.Perm (insertBy le a l) (a :: l) := by
  induction l with
  | nil => exact List.Perm.refl _
  | cons b t ih =>
    cases hab : le a b with
    | true => simp [insertBy, hab]
    | false =>
      simp only [insertBy, hab, Bool.false_eq_true, if_false]
      exact (ih.cons b).trans (List.Perm.swap a b t)

theorem sortBy_perm {α : Type} (le : α → α → Bool) (l : List α) :
    List.Perm (sortBy le l) l := by
  induction l with
  | nil => simp [sortBy]
  | cons a t ih =>
    exact (insertBy_perm le a (sortBy le t)).trans (List.Perm.cons a ih)

theorem mem_insertBy {α : Type} {le : α → α → Bool} {a x : α} {l : List α} :
    x ∈ insertBy le a l ↔ x = a ∨ x ∈ l := by
  have h : x ∈ insertBy le a l ↔ x ∈ a :: l := (insertBy_perm le a l).mem_iff
  simpa using h

theorem insertBy_pairwise {α : Type} {le : α → α → Bool}
    (htot : ∀ a b, le a b = true ∨ le b a = true)
    (htrans : ∀ a b c, le a b = true → le b c = true → le a c = true)
    (a : α) {l : List α} (h : List.Pairwise (fun x y => le x y = true) l) :
    List.Pairwise (fun x y => le x y = true) (insertBy le a l) := by
  induction l with
  | nil => simp [insertBy]
  | cons b t ih =>
    rcases List.pairwise_cons.mp h with ⟨hbt, hpt⟩
    cases hab : le a b with
    | true =>
      simp only [insertBy, hab, if_true]
      refine List.pairwise_cons.mpr ⟨?_, h⟩
      intro y hy
      rcases List.mem_cons.mp hy with rfl | hyt
      · exact hab
      · exact htrans a b y hab (hbt y hyt)
    | false =>
      simp only [insertBy, hab, Bool.false_eq_true, if_false]
      refine List.pairwise_cons.mpr ⟨?_, ih hpt⟩
      intro y hy
      rcases mem_insertBy.mp hy with rfl | hyt
      · rcases htot y b with hl | hr
        · exact (by simp [hl] at hab : False).elim
        · exact hr
      · exact hbt y hyt

theorem sortBy_pairwise {α : Type} {le : α → α → Bool}
    (htot : ∀ a b, le a b = true ∨ le b a = true)
    (htrans : ∀ a b c, le a b = true → le b c = true → le a c = true)
    (l : List α) :
    List.Pairwise (fun x y => le x y = true) (sortBy le l) := by
  induction l with
  | nil => simp [sortBy]
  | cons a t ih => exact insertBy_pairwise htot htrans a ih

/-- Stability of `insertBy` on an equivalence class selected by `p`: the
inserted element lands before every `p`-element already present. -/
theorem filter_insertBy {α : Type} {le : α → α → Bool} {p : α → Bool}
    (hp : ∀ x y, p x = true → p y = true → le x y = true)
    (a : α) (l : List α) :
    (insertBy le a l).filter p =
      if p a = true then a :: l.filter p else l.filter p := by
  induction l with
  | nil =>
    cases hpa : p a <;> simp [insertBy, List.filter, hpa]
  | cons b t ih =>
    cases hab : le a b with
    | true =>
      simp only [insertBy, hab, if_true]
      cases hpa : p a <;> simp [List.filter, hpa]
    | false =>
      simp only [insertBy, hab, Bool.false_eq_true, if_false]
      cases hpa : p a with
      | true =>
        cases hpb : p b with
        | true => exact absurd (hp a b hpa hpb) (by simp [hab])
        | false => simp [List.filter, hpb, ih, hpa]
      | false =>
        cases hpb : p b <;> simp [List.filter, hpb, ih, hpa]

/-- Stability of `sortBy`: elements of one `le`-equivalence class keep their
input order (this is the stability guarantee of `Array.prototype.sort`). -/
theorem filter_sortBy {α : Type} {le : α → α → Bool} {p : α → Bool}
    (hp : ∀ x y, p x = true → p y = true → le x y = true)
    (l : List α) :
    (sortBy le l).filter p = l.filter p := by
  induction l with
  | nil => simp [sortBy]
  | cons a t ih =>
    simp only [sortBy]
    rw [filter_insertBy hp]
    cases hpa : p a <;> simp [List.filter, hpa, ih]

theorem sortBy_head_le {α : Type} {le : α → α → Bool}
    (htot : ∀ a b, le a b = true ∨ le b a = true)
    (htrans : ∀ a b c, le a b = true → le b c = true → le a c = true)
    {l t : List α} {h : α} (e : sortBy le l = h :: t) :
    ∀ x ∈ l, le h x = true := by
  intro x hx
  have hxs : x ∈ sortBy le l := (sortBy_perm le l).mem_iff.mpr hx
  rw [e] at hxs
  rcases List.mem_cons.mp hxs with rfl | hxt
  · rcases htot x x with h1 | h1 <;> exact h1
  · have hp := sortBy_pairwise htot htrans l
    rw [e] at hp
    exact (List.pairwise_cons.mp hp).1 x hxt

/-! ## Data model (src/services/productService.ts) -/

inductive Chain
  | walmart
  | target
deriving DecidableEq, Repr

structure StoreLocation where
  storeId : String
  name : String
  address : String
  distance : Option ℚ
  chain : Chain
deriving DecidableEq, Repr

structure StoreInventory where
  storeId : String
  chain : Chain
  inStock : Bool
  quantity : Option ℚ
  aisle : String
  price : Option ℚ
  lastUpdated : ℕ
deriving DecidableEq, Repr

structure ProductInfo where
  name : String
  image : String
  barcode : String
  inventory : StoreInventory
  alternativeStores : Option (List StoreInventory)
  brand : Option String
deriving DecidableEq, Repr

/-! ## Environment: HTTP responses and the fields cheerio extracts -/

/-- One `.store-list-item` node of a store-finder page: the `data-store-id`
attribute and the text of the `.store-name`, `.store-address` and `.distance`
child nodes (a missing node yields the empty string, as `.text()` does). -/
structure StorePageEntry where
  storeIdAttr : Option String
  nameText : String
  addressText : String
  distanceText : String
deriving DecidableEq, Repr

/-- Fields extracted from a product page for the inventory lookup:
`$(".fulfillment-status").text()`, the price selector text and
`$(".aisle-location").text()`. -/
structure InvPage where
  inStockText : String
  priceText : String
  aisleText : String
deriving DecidableEq, Repr

/-- Fields extracted from a product page for the metadata scrape: the title
text, the image `src` attribute and the brand text. -/
structure MetaPage where
  nameText : String
  imageSrc : Option String
  brandText : String
deriving DecidableEq, Repr

/-- The outside world as seen by `ProductService`: each `axios.get` either
throws (network error or non-2xx response, `Except.error`) or yields a page
from which cheerio extracts the listed fields. The product-page URLs depend
only on the barcode, the store-finder URLs only on the zip code. `now`
supplies `new Date()` as an abstract timestamp. -/
structure Env where
  walmartStoresPage : String → Except Unit (List StorePageEntry)
  targetStoresPage : String → Except Unit (List StorePageEntry)
  walmartInvPage : String → Except Unit InvPage
  targetInvPage : String → Except Unit InvPage
  walmartMetaPage : String → Except Unit MetaPage
  targetMetaPage : String → Except Unit MetaPage
  now : ℕ

/-! ## Retailer adapters -/

/-- Body of the `$(".store-list-item").each` callback shared by both
store-finder functions: `storeId = attr("data-store-id") || ""`, trimmed name
and address, and `distance = parseFloat(distanceText.replace("miles","").trim())`. -/
def storeEntryToLocation (c : Chain) (e : StorePageEntry) : StoreLocation :=
  { storeId := e.storeIdAttr.getD ""
    name := strTrim e.nameText
    address := strTrim e.addressText
    distance := jsParseFloat (strTrim (removeFirst (strTrim e.distanceText) "miles"))
    chain := c }

/-- `findWalmartStores`: one retrieval call; on a thrown error the catch block
returns the empty list. -/
def findWalmartStores (env : Env) (zipCode : String) : List StoreLocation :=
  match env.walmartStoresPage zipCode with
  | .error _ => []
  | .ok entries => entries.map (storeEntryToLocation Chain.walmart)

/-- `findTargetStores`: identical to the Walmart variant up to endpoint and
chain tag. -/
def findTargetStores (env : Env) (zipCode : String) : List StoreLocation :=
  match env.targetStoresPage zipCode with
  | .error _ => []
  | .ok entries => entries.map (storeEntryToLocation Chain.target)

/-- Shared body of both inventory lookups: lower-cased fulfillment text
matched against "in stock", `aisle = aisleText || "Ask store associate"`,
`price = parseFloat(priceText.replace("$","")) || undefined`. -/
def invPageToInventory (c : Chain) (now : ℕ) (storeId : String) (p : InvPage) :
    StoreInventory :=
  let inStockText := strToLower p.inStockText
  let priceText := strTrim p.priceText
  let aisleText := strTrim p.aisleText
  { storeId := storeId
    chain := c
    inStock := strContains inStockText "in stock"
    quantity := none
    aisle := if aisleText = "" then "Ask store associate" else aisleText
    price := jsOrUndefined (jsParseFloat (removeFirst priceText "$"))
    lastUpdated := now }

/-- `getWalmartInventory`: returns `null` only when the retrieval call throws. -/
def getWalmartInventory (env : Env) (storeId barcode : String) :
    Option StoreInventory :=
  match env.walmartInvPage barcode with
  | .error _ => none
  | .ok p => some (invPageToInventory Chain.walmart env.now storeId p)

/-- `getTargetInventory`. -/
def getTargetInventory (env : Env) (storeId barcode : String) :
    Option StoreInventory :=
  match env.targetInvPage barcode with
  | .error _ => none
  | .ok p => some (invPageToInventory Chain.target env.now storeId p)

/-- Placeholder inventory attached by the metadata scrapers. -/
def placeholderInventory (c : Chain) (now : ℕ) : StoreInventory :=
  { storeId := "unknown"
    chain := c
    inStock := false
    quantity := none
    aisle := "unknown"
    price := none
    lastUpdated := now }

/-- Shared body of both metadata scrapers: trimmed title/brand, image `src`
attribute defaulted to `""`, `null` when the name is empty. -/
def metaPageToProduct (c : Chain) (now : ℕ) (barcode : String) (p : MetaPage) :
    Option ProductInfo :=
  let name := strTrim p.nameText
  let image := p.imageSrc.getD ""
  let brand := strTrim p.brandText
  if name = "" then none
  else
    some { name := name
           image := image
           barcode := barcode
           inventory := placeholderInventory c now
           alternativeStores := none
           brand := some brand }

/-- `scrapeWalmartProduct`: `null` when the fetch throws or no name extracts. -/
def scrapeWalmartProduct (env : Env) (barcode : String) : Option ProductInfo :=
  match env.walmartMetaPage barcode with
  | .error _ => none
  | .ok p => metaPageToProduct Chain.walmart env.now barcode p

/-- `scrapeTargetProduct`. -/
def scrapeTargetProduct (env : Env) (barcode : String) : Option ProductInfo :=
  match env.targetMetaPage barcode with
  | .error _ => none
  | .ok p => metaPageToProduct Chain.target env.now barcode p

/-! ## The orchestrator (`getProductInfo`) -/

/-- Sort key of the store comparator `(a.distance || Infinity)`: `undefined`,
`NaN` and `0` are all falsy in JS, so all three collapse to `Infinity`,
modelled as `none`. -/
def distKey (d : Option ℚ) : Option ℚ :=
  match d with
  | none => none
  | some q => if q = 0 then none else some q

/-- `x ≤ y` on sort keys where `none` is `Infinity`; `Infinity ≤ Infinity`
holds because the comparator result `Infinity - Infinity = NaN` is treated as
`0` by `Array.prototype.sort`. -/
def optLe (x y : Option ℚ) : Bool :=
  match x, y with
  | _, none => true
  | none, some _ => false
  | some a, some b => decide (a ≤ b)

/-- The comparator `(a.distance || Infinity) - (b.distance || Infinity)` keeps
`a` before `b` exactly when this relation holds. -/
def storeLe (a b : StoreLocation) : Bool :=
  optLe (distKey a.distance) (distKey b.distance)

/-- `[...walmartStores, ...targetStores].sort(...)`. -/
def sortStores (l : List StoreLocation) : List StoreLocation :=
  sortBy storeLe l

/-- The per-chain inventory dispatch `store.chain === "walmart" ? ... : ...`. -/
def getInventoryFor (env : Env) (c : Chain) (storeId barcode : String) :
    Option StoreInventory :=
  match c with
  | Chain.walmart => getWalmartInventory env storeId barcode
  | Chain.target => getTargetInventory env storeId barcode

/-- The merged, comparator-sorted candidate list (`allStores`). -/
def allStoresFor (env : Env) (zipCode : String) : List StoreLocation :=
  sortStores (findWalmartStores env zipCode ++ findTargetStores env zipCode)

/-- The sequential loop over `allStores.slice(1, 4)` collecting every in-stock
inventory result. -/
def altsFor (env : Env) (barcode : String) (rest : List StoreLocation) :
    List StoreInventory :=
  (rest.take 3).filterMap fun st =>
    match getInventoryFor env st.chain st.storeId barcode with
    | some si => if si.inStock then some si else none
    | none => none

/-- Body of the `if (zipCode)` branch of `getProductInfo`: find and sort
stores across both chains, query the nearest candidate, and when the primary
inventory is absent or out of stock (`!inventory?.inStock`) gather in-stock
alternatives from the next three candidates. -/
def resolveWithStores (env : Env) (barcode z : String)
    (productInfo : ProductInfo) : ProductInfo :=
  match allStoresFor env z with
  | [] => productInfo
  | nearest :: rest =>
    let inventory := getInventoryFor env nearest.chain nearest.storeId barcode
    let productInfo1 :=
      match inventory with
      | some inv => { productInfo with inventory := inv }
      | none => productInfo
    if (match inventory with | some inv => inv.inStock | none => false) then
      productInfo1
    else
      let alternativeStores := altsFor env barcode rest
      if alternativeStores.length > 0 then
        { productInfo1 with alternativeStores := some alternativeStores }
      else
        productInfo1

/-- `getProductInfo(barcode, zipCode?)`: Walmart metadata first, Target as
fallback, null when both fail; with a zip code the inventory resolution of
`resolveWithStores` is applied before returning. -/
def getProductInfo (env : Env) (barcode : String) (zipCode : Option String) :
    Option ProductInfo :=
  match (match scrapeWalmartProduct env barcode with
         | some p => some p
         | none => scrapeTargetProduct env barcode) with
  | none => none
  | some productInfo =>
    match zipCode with
    | none => some productInfo
    | some z => some (resolveWithStores env barcode z productInfo)

/-! ## HTTP retrieval layer retry policy

The retry loop itself lives in the axios-retry library, which is not part of
this repository's sources; productService.ts only carries its configuration
(attempt count 3, exponential delay, and the retry condition: network failure,
idempotent-request failure, or HTTP 429). The loop below is therefore modelled
from the spec; the retry condition is the one configured in the source. -/

/-- Outcome the network would produce for one attempted request. -/
inductive FetchOutcome
  | ok (body : String)
  | networkFailure
  | idempotentFailure
  | httpError (status : ℕ)
deriving DecidableEq, Repr

/-- The configured `retryCondition`:
`isNetworkOrIdempotentRequestError(error) || error.response?.status === 429`. -/
def retryCondition : FetchOutcome → Bool
  | FetchOutcome.networkFailure => true
  | FetchOutcome.idempotentFailure => true
  | FetchOutcome.httpError s => s == 429
  | FetchOutcome.ok _ => false

/-- Modelled from the spec: "up to 3 attempts total". -/
def maxAttempts : ℕ := 3

/-- The retry loop: `responses i` is the outcome of the i-th attempt; returns
the final outcome with the number of attempts made. `fuel` counts the retries
still allowed. -/
def runRetry (responses : ℕ → FetchOutcome) : ℕ → ℕ → FetchOutcome × ℕ
  | i, 0 => (responses i, i + 1)
  | i, fuel + 1 =>
    match responses i with
    | FetchOutcome.ok b => (FetchOutcome.ok b, i + 1)
    | o => if retryCondition o then runRetry responses (i + 1) fuel else (o, i + 1)

/-- One retrieval call under the retry policy. -/
def retrieve (responses : ℕ → FetchOutcome) : FetchOutcome × ℕ :=
  runRetry responses 0 (maxAttempts - 1)

/-! ## Route optimizer (src/unnamed/part_002) -/

structure PriceInfo where
  store : String
  price : ℚ
  distance : ℚ
  address : String
  timestamp : ℕ
deriving DecidableEq, Repr

structure PantryItem where
  id : String
  barcode : String
  name : String
  quantity : ℚ
  dateAdded : ℕ
  image : String
  prices : List PriceInfo
  aisle : Option String
deriving DecidableEq, Repr

structure StoreRoute where
  store : String
  items : List PantryItem
  optimizedPath : List PantryItem
  totalItems : ℚ
deriving DecidableEq, Repr

/-- First maximal run of digits in a string (`aisle.match(/\d+/)`). -/
def firstDigitRun : List Char → Option (List Char)
  | [] => none
  | c :: rest =>
    if c.isDigit then some (c :: rest.takeWhile (fun d => d.isDigit))
    else firstDigitRun rest

/-- `getAisleNumber`: 999 when the aisle is null — or empty, which is equally
falsy under `!aisle` — otherwise `parseInt` of the first digit run, and 998
when the string has no digits. -/
def getAisleNumber (aisle : Option String) : ℕ :=
  match aisle with
  | none => 999
  | some s =>
    if s = "" then 999
    else
      match firstDigitRun s.toList with
      | some ds => digitsToNat ds
      | none => 998

/-- A canonical array-index key of a JS object: a canonical decimal numeral
below 2^32 - 1. `Object.keys` enumerates these first, in ascending numeric
order, before the remaining keys in insertion order. -/
def isArrayIndexKey (s : String) : Bool :=
  s != "" && s.toList.all (fun c => c.isDigit)
    && (s == "0" || s.toList.head? != some '0')
    && decide (digitsToNat s.toList < 4294967295)

def numKeyLe (a b : String) : Bool :=
  decide (digitsToNat a.toList ≤ digitsToNat b.toList)

/-- `Object.keys` enumeration order for an object whose keys were inserted in
the order `ks`. -/
def jsObjectKeys (ks : List String) : List String :=
  sortBy numKeyLe (ks.filter isArrayIndexKey)
    ++ ks.filter (fun k => !(isArrayIndexKey k))

/-- The aisle label under which `optimizeRoute` groups an item:
`item.aisle || "Other"` (both null and the empty string are falsy). -/
def aisleLabel (it : PantryItem) : String :=
  match it.aisle with
  | none => "Other"
  | some s => if s = "" then "Other" else s

/-- Append `a` to the bucket of key `k` in an insertion-ordered association
list, creating the bucket at the end when absent (JS object / Map update). -/
def addToBucket {β : Type} (k : String) (a : β) :
    List (String × List β) → List (String × List β)
  | [] => [(k, [a])]
  | (k1, b1) :: rest =>
    if k1 = k then (k1, b1 ++ [a]) :: rest
    else (k1, b1) :: addToBucket k a rest

/-- The `items.reduce` of `optimizeRoute` building `aisleGroups`. -/
def aisleGroups (items : List PantryItem) : List (String × List PantryItem) :=
  items.foldl (fun gs it => addToBucket (aisleLabel it) it gs) []

/-- The comparator `getAisleNumber(a) - getAisleNumber(b)` keeps `a` before
`b` exactly when this relation holds. -/
def aisleLe (a b : String) : Bool :=
  decide (getAisleNumber (some a) ≤ getAisleNumber (some b))

def bucketOf {β : Type} (gs : List (String × List β)) (k : String) : List β :=
  match gs.lookup k with
  | some b => b
  | none => []

/-- `optimizeRoute`: group by raw aisle label, sort the object's keys by
`getAisleNumber`, flatten the groups in that order. -/
def optimizeRoute (items : List PantryItem) : List PantryItem :=
  let gs := aisleGroups items
  let sortedAisles := sortBy aisleLe (jsObjectKeys (gs.map Prod.fst))
  sortedAisles.flatMap (fun a => bucketOf gs a)

/-- The `storeMap` building pass of `organizeByStore`: for each item carrying
at least one price observation, ensure the bucket of its first price's store
exists (fixing insertion order), then push the item only when
`item.quantity > 0`. -/
def storeStep (m : List (String × List PantryItem)) (it : PantryItem) :
    List (String × List PantryItem) :=
  match it.prices with
  | [] => m
  | p :: _ =>
    let m1 := if (m.lookup p.store).isSome then m else m ++ [(p.store, [])]
    if it.quantity > 0 then addToBucket p.store it m1 else m1

def storeMap (items : List PantryItem) : List (String × List PantryItem) :=
  items.foldl storeStep []

/-- The `storeMap.forEach` pass: one route per store with a nonempty bucket,
in map insertion order; `totalItems` sums the bucket's quantities. -/
def routesPre (items : List PantryItem) : List StoreRoute :=
  (storeMap items).filterMap fun sb =>
    if sb.2.length > 0 then
      some { store := sb.1
             items := sb.2
             optimizedPath := optimizeRoute sb.2
             totalItems := (sb.2.map (fun it => it.quantity)).sum }
    else none

/-- The comparator `b.totalItems - a.totalItems` keeps `a` before `b` exactly
when this relation holds. -/
def routeLe (a b : StoreRoute) : Bool :=
  decide (b.totalItems ≤ a.totalItems)

/-- `organizeByStore`: build the per-store routes, then
`routes.sort((a, b) => b.totalItems - a.totalItems)`. -/
def organizeByStore (items : List PantryItem) : List StoreRoute :=
  sortBy routeLe (routesPre items)

/-! ## Comparator properties -/

theorem optLe_refl (x : Option ℚ) : optLe x x = true := by
  cases x <;> simp [optLe]

theorem optLe_total (x y : Option ℚ) : optLe x y = true ∨ optLe y x = true := by
  cases x <;> cases y <;> simp [optLe]
  exact le_total _ _

theorem optLe_trans {x y z : Option ℚ} (h1 : optLe x y = true)
    (h2 : optLe y z = true) : optLe x z = true := by
  cases x <;> cases y <;> cases z <;> simp [optLe] at h1 h2 ⊢
  exact le_trans h1 h2

theorem storeLe_total (a b : StoreLocation) :
    storeLe a b = true ∨ storeLe b a = true :=
  optLe_total _ _

theorem storeLe_trans (a b c : StoreLocation) (h1 : storeLe a b = true)
    (h2 : storeLe b c = true) : storeLe a c = true :=
  optLe_trans h1 h2

theorem aisleLe_total (a b : String) : aisleLe a b = true ∨ aisleLe b a = true := by
  simp [aisleLe]
  omega

theorem aisleLe_trans (a b c : String) (h1 : aisleLe a b = true)
    (h2 : aisleLe b c = true) : aisleLe a c = true := by
  simp [aisleLe] at h1 h2 ⊢
  omega

theorem routeLe_total (a b : StoreRoute) :
    routeLe a b = true ∨ routeLe b a = true := by
  simp [routeLe]
  exact le_total _ _

theorem routeLe_trans (a b c : StoreRoute) (h1 : routeLe a b = true)
    (h2 : routeLe b c = true) : routeLe a c = true := by
  simp [routeLe] at h1 h2 ⊢
  exact le_trans h2 h1

/-! ## Retry policy lemmas -/

theorem runRetry_zero (rs : ℕ → FetchOutcome) (i : ℕ) :
    runRetry rs i 0 = (rs i, i + 1) := rfl

theorem runRetry_succ_ok (rs : ℕ → FetchOutcome) (i f : ℕ) (b : String)
    (h : rs i = FetchOutcome.ok b) :
    runRetry rs i (f + 1) = (FetchOutcome.ok b, i + 1) := by
  simp [runRetry, h]

theorem runRetry_succ_retryable (rs : ℕ → FetchOutcome) (i f : ℕ)
    (h : retryCondition (rs i) = true) :
    runRetry rs i (f + 1) = runRetry rs (i + 1) f := by
  cases ho : rs i with
  | ok b => rw [ho] at h; simp [retryCondition] at h
  | networkFailure => simp [runRetry, ho, retryCondition]
  | idempotentFailure => simp [runRetry, ho, retryCondition]
  | httpError s =>
    rw [ho] at h
    simp only [runRetry, ho, retryCondition] at h ⊢
    rw [if_pos h]

theorem runRetry_succ_fatal (rs : ℕ → FetchOutcome) (i f : ℕ)
    (hok : ∀ b, rs i ≠ FetchOutcome.ok b)
    (h : retryCondition (rs i) = false) :
    runRetry rs i (f + 1) = (rs i, i + 1) := by
  cases ho : rs i with
  | ok b => exact absurd ho (hok b)
  | networkFailure => rw [ho] at h; simp [retryCondition] at h
  | idempotentFailure => rw [ho] at h; simp [retryCondition] at h
  | httpError s =>
    rw [ho] at h
    simp only [retryCondition] at h
    simp only [runRetry, ho, retryCondition]
    rw [if_neg]
    simp [h]

theorem runRetry_snd_le (rs : ℕ → FetchOutcome) (fuel i : ℕ) :
    (runRetry rs i fuel).2 ≤ i + fuel + 1 := by
  induction fuel generalizing i with
  | zero => rw [runRetry_zero]
  | succ f ih =>
    cases hok : rs i with
    | ok b => rw [runRetry_succ_ok rs i f b hok]; omega
    | networkFailure =>
      rw [runRetry_succ_retryable rs i f (by simp [hok, retryCondition])]
      have := ih (i + 1)
      omega
    | idempotentFailure =>
      rw [runRetry_succ_retryable rs i f (by simp [hok, retryCondition])]
      have := ih (i + 1)
      omega
    | httpError s =>
      by_cases hs : s = 429
      · subst hs
        rw [runRetry_succ_retryable rs i f (by simp [hok, retryCondition])]
        have := ih (i + 1)
        omega
      · rw [runRetry_succ_fatal rs i f (by simp [hok]) (by simp [hok, retryCondition, hs])]
        omega

theorem runRetry_retried (rs : ℕ → FetchOutcome) :
    ∀ fuel i j, i ≤ j → j + 1 < (runRetry rs i fuel).2 →
      retryCondition (rs j) = true := by
  intro fuel
  induction fuel with
  | zero =>
    intro i j hij hlt
    rw [runRetry_zero] at hlt
    omega
  | succ f ih =>
    intro i j hij hlt
    cases hok : rs i with
    | ok b =>
      rw [runRetry_succ_ok rs i f b hok] at hlt
      omega
    | networkFailure =>
      have hrc : retryCondition (rs i) = true := by simp [hok, retryCondition]
      rw [runRetry_succ_retryable rs i f hrc] at hlt
      rcases eq_or_lt_of_le hij with rfl | hij2
      · exact hrc
      · exact ih (i + 1) j hij2 hlt
    | idempotentFailure =>
      have hrc : retryCondition (rs i) = true := by simp [hok, retryCondition]
      rw [runRetry_succ_retryable rs i f hrc] at hlt
      rcases eq_or_lt_of_le hij with rfl | hij2
      · exact hrc
      · exact ih (i + 1) j hij2 hlt
    | httpError s =>
      by_cases hs : s = 429
      · subst hs
        have hrc : retryCondition (rs i) = true := by simp [hok, retryCondition]
        rw [runRetry_succ_retryable rs i f hrc] at hlt
        rcases eq_or_lt_of_le hij with rfl | hij2
        · exact hrc
        · exact ih (i + 1) j hij2 hlt
      · rw [runRetry_succ_fatal rs i f (by simp [hok])
          (by simp [hok, retryCondition, hs])] at hlt
        omega

/-- C2: the retrieval layer makes at most 3 attempts; a request is retried
only when the configured retry condition holds for the failed attempt
(network failure, idempotent-request failure, or HTTP 429); any other HTTP
error fails after exactly one attempt; and two network failures followed by a
success yield the success after exactly three attempts. -/
theorem retrieve_retry_policy :
    (∀ rs : ℕ → FetchOutcome, (retrieve rs).2 ≤ 3)
    ∧ (∀ rs : ℕ → FetchOutcome, ∀ j, j + 1 < (retrieve rs).2 →
        retryCondition (rs j) = true)
    ∧ (∀ rs : ℕ → FetchOutcome, ∀ s, rs 0 = FetchOutcome.httpError s →
        s ≠ 429 → retrieve rs = (FetchOutcome.httpError s, 1))
    ∧ (∀ rs : ℕ → FetchOutcome, ∀ b, rs 0 = FetchOutcome.networkFailure →
        rs 1 = FetchOutcome.networkFailure → rs 2 = FetchOutcome.ok b →
        retrieve rs = (FetchOutcome.ok b, 3)) := by
  refine ⟨?_, ?_, ?_, ?_⟩
  · intro rs
    have := runRetry_snd_le rs (maxAttempts - 1) 0
    simpa [retrieve, maxAttempts] using this
  · intro rs j hlt
    exact runRetry_retried rs (maxAttempts - 1) 0 j (Nat.zero_le j) hlt
  · intro rs s h0 hne
    have hs : (s == 429) = false := by simp [hne]
    simp [retrieve, maxAttempts, runRetry, h0, retryCondition, hs]
  · intro rs b h0 h1 h2
    simp [retrieve, maxAttempts, runRetry, h0, h1, h2, retryCondition]

/-- Concrete response sequences for the retry-policy witness. -/
def retryWitnessSeq : ℕ → FetchOutcome :=
  fun i => if i < 2 then FetchOutcome.networkFailure else FetchOutcome.ok "payload"

def retryWitnessSeq404 : ℕ → FetchOutcome :=
  fun _ => FetchOutcome.httpError 404

theorem retrieve_retry_policy_witness :
    retrieve retryWitnessSeq = (FetchOutcome.ok "payload", 3)
    ∧ retrieve retryWitnessSeq404 = (FetchOutcome.httpError 404, 1) := by
  constructor
  · exact retrieve_retry_policy.2.2.2 retryWitnessSeq "payload" rfl rfl rfl
  · exact retrieve_retry_policy.2.2.1 retryWitnessSeq404 404 rfl (by decide)

/-! ## Orchestrator lemmas -/

theorem metaPageToProduct_fields {c : Chain} {now : ℕ} {barcode : String}
    {p : MetaPage} {q : ProductInfo}
    (h : metaPageToProduct c now barcode p = some q) :
    q.inventory = placeholderInventory c now ∧ q.alternativeStores = none := by
  simp only [metaPageToProduct] at h
  by_cases hn : strTrim p.nameText = ""
  · rw [if_pos hn] at h
    exact absurd h (by simp)
  · rw [if_neg hn, Option.some.injEq] at h
    subst h
    exact ⟨rfl, rfl⟩

theorem scrape_fields {env : Env} {barcode : String} {q : ProductInfo}
    (h : scrapeWalmartProduct env barcode = some q
      ∨ scrapeTargetProduct env barcode = some q) :
    q.inventory.storeId = "unknown" ∧ q.inventory.inStock = false
      ∧ q.alternativeStores = none := by
  rcases h with h | h
  · unfold scrapeWalmartProduct at h
    cases hp : env.walmartMetaPage barcode with
    | error e => rw [hp] at h; exact absurd h (by simp)
    | ok p =>
      rw [hp] at h
      rcases metaPageToProduct_fields h with ⟨h1, h2⟩
      exact ⟨by rw [h1]; rfl, by rw [h1]; rfl, h2⟩
  · unfold scrapeTargetProduct at h
    cases hp : env.targetMetaPage barcode with
    | error e => rw [hp] at h; exact absurd h (by simp)
    | ok p =>
      rw [hp] at h
      rcases metaPageToProduct_fields h with ⟨h1, h2⟩
      exact ⟨by rw [h1]; rfl, by rw [h1]; rfl, h2⟩

theorem resolveWithStores_fields (env : Env) (barcode z : String)
    (pi : ProductInfo) :
    (resolveWithStores env barcode z pi).name = pi.name
    ∧ (resolveWithStores env barcode z pi).image = pi.image
    ∧ (resolveWithStores env barcode z pi).barcode = pi.barcode
    ∧ (resolveWithStores env barcode z pi).brand = pi.brand := by
  unfold resolveWithStores
  cases allStoresFor env z with
  | nil => exact ⟨rfl, rfl, rfl, rfl⟩
  | cons nearest rest =>
    cases hi : getInventoryFor env nearest.chain nearest.storeId barcode with
    | none =>
      simp only [hi]
      split <;> try split
      all_goals exact ⟨rfl, rfl, rfl, rfl⟩
    | some inv =>
      simp only [hi]
      split <;> try split
      all_goals exact ⟨rfl, rfl, rfl, rfl⟩

/-- C4: `getProductInfo` takes the product identity from the first adapter in
the fixed order Walmart-then-Target whose metadata scrape is non-null, and
returns null exactly when both scrapes return null. -/
theorem getProductInfo_identity_priority :
    ∀ (env : Env) (barcode : String) (zipCode : Option String),
      (getProductInfo env barcode zipCode = none ↔
        (scrapeWalmartProduct env barcode = none
          ∧ scrapeTargetProduct env barcode = none))
      ∧ (∀ p, scrapeWalmartProduct env barcode = some p →
          ∃ q, getProductInfo env barcode zipCode = some q
            ∧ q.name = p.name ∧ q.image = p.image ∧ q.barcode = p.barcode
            ∧ q.brand = p.brand)
      ∧ (scrapeWalmartProduct env barcode = none →
          ∀ p, scrapeTargetProduct env barcode = some p →
          ∃ q, getProductInfo env barcode zipCode = some q
            ∧ q.name = p.name ∧ q.image = p.image ∧ q.barcode = p.barcode
            ∧ q.brand = p.brand) := by
  intro env barcode zipCode
  refine ⟨⟨?_, ?_⟩, ?_, ?_⟩
  · intro h
    unfold getProductInfo at h
    cases hw : scrapeWalmartProduct env barcode with
    | some p =>
      rw [hw] at h
      cases zipCode <;> simp at h
    | none =>
      cases ht : scrapeTargetProduct env barcode with
      | some p =>
        rw [hw, ht] at h
        cases zipCode <;> simp at h
      | none => exact ⟨rfl, rfl⟩
  · rintro ⟨hw, ht⟩
    simp [getProductInfo, hw, ht]
  · intro p hw
    cases zipCode with
    | none => exact ⟨p, by simp [getProductInfo, hw], rfl, rfl, rfl, rfl⟩
    | some z =>
      refine ⟨resolveWithStores env barcode z p, by simp [getProductInfo, hw], ?_⟩
      exact resolveWithStores_fields env barcode z p
  · intro hw p ht
    cases zipCode with
    | none => exact ⟨p, by simp [getProductInfo, hw, ht], rfl, rfl, rfl, rfl⟩
    | some z =>
      refine ⟨resolveWithStores env barcode z p, by simp [getProductInfo, hw, ht], ?_⟩
      exact resolveWithStores_fields env barcode z p

/-! ## Sample environments for witnesses and counterexamples -/

def pageInvW : InvPage :=
  { inStockText := "In Stock at your store", priceText := "$4.99", aisleText := "A7" }

def pageInvT : InvPage :=
  { inStockText := "Out of stock", priceText := "$0.00", aisleText := "" }

def pageMetaW : MetaPage :=
  { nameText := "Widget", imageSrc := some "img", brandText := "Acme" }

/-- An environment in which every request succeeds. -/
def envHappy : Env :=
  { walmartStoresPage := fun _ => Except.ok
      [{ storeIdAttr := some "w1", nameText := "Walmart 1", addressText := "1 Main St",
         distanceText := "0.5 miles" }]
    targetStoresPage := fun _ => Except.ok []
    walmartInvPage := fun _ => Except.ok pageInvW
    targetInvPage := fun _ => Except.ok pageInvT
    walmartMetaPage := fun _ => Except.ok pageMetaW
    targetMetaPage := fun _ => Except.error ()
    now := 0 }

/-- The product the Walmart metadata scrape yields in `envHappy`. -/
def productW : ProductInfo :=
  { name := "Widget"
    image := "img"
    barcode := "012345"
    inventory := placeholderInventory Chain.walmart 0
    alternativeStores := none
    brand := some "Acme" }

theorem getProductInfo_identity_priority_witness :
    ∃ q, getProductInfo envHappy "012345" none = some q
      ∧ q.name = productW.name ∧ q.image = productW.image
      ∧ q.barcode = productW.barcode ∧ q.brand = productW.brand :=
  (getProductInfo_identity_priority envHappy "012345" none).2.1 productW (by decide)

/-- C7: adapter operations absorb retrieval failures instead of letting them
escape: a thrown request makes `findStores` return the empty list and
`getInventory` return null. -/
theorem adapters_absorb_failures :
    ∀ (env : Env) (zipCode storeId barcode : String) (e : Unit),
      (env.walmartStoresPage zipCode = Except.error e →
        findWalmartStores env zipCode = [])
      ∧ (env.targetStoresPage zipCode = Except.error e →
        findTargetStores env zipCode = [])
      ∧ (env.walmartInvPage barcode = Except.error e →
        getWalmartInventory env storeId barcode = none)
      ∧ (env.targetInvPage barcode = Except.error e →
        getTargetInventory env storeId barcode = none) := by
  intro env zipCode storeId barcode e
  refine ⟨?_, ?_, ?_, ?_⟩ <;> intro h <;>
    simp [findWalmartStores, findTargetStores, getWalmartInventory,
      getTargetInventory, h]

/-- An environment in which every request throws. -/
def envAllFail : Env :=
  { walmartStoresPage := fun _ => Except.error ()
    targetStoresPage := fun _ => Except.error ()
    walmartInvPage := fun _ => Except.error ()
    targetInvPage := fun _ => Except.error ()
    walmartMetaPage := fun _ => Except.error ()
    targetMetaPage := fun _ => Except.error ()
    now := 0 }

theorem adapters_absorb_failures_witness :
    findWalmartStores envAllFail "90210" = []
    ∧ findTargetStores envAllFail "90210" = []
    ∧ getWalmartInventory envAllFail "w1" "012345" = none
    ∧ getTargetInventory envAllFail "w1" "012345" = none := by
  obtain ⟨h1, h2, h3, h4⟩ :=
    adapters_absorb_failures envAllFail "90210" "w1" "012345" ()
  exact ⟨h1 rfl, h2 rfl, h3 rfl, h4 rfl⟩

/-! ## Stock flag, aisle and price extraction (C8, C9, C10) -/

/-- Case-insensitive containment, as the spec phrases the stock check. -/
def containsCaseInsensitive (s pat : String) : Bool :=
  strContains (strToLower s) (strToLower pat)

theorem lower_instock_phrase : strToLower "in stock" = "in stock" := by decide

/-- C8: for every inventory lookup that returns a `StoreInventory`, `inStock`
is set exactly when the extracted stock-state text contains "in stock"
case-insensitively, and `aisle` is the extracted (trimmed) aisle text, or the
"Ask store associate" placeholder when that text is empty. -/
theorem inventory_instock_and_aisle :
    ∀ (env : Env) (storeId barcode : String) (p : InvPage) (inv : StoreInventory),
      ((env.walmartInvPage barcode = Except.ok p
          ∧ getWalmartInventory env storeId barcode = some inv)
        ∨ (env.targetInvPage barcode = Except.ok p
          ∧ getTargetInventory env storeId barcode = some inv)) →
      (inv.inStock = containsCaseInsensitive p.inStockText "in stock")
      ∧ inv.aisle = (if strTrim p.aisleText = "" then "Ask store associate"
          else strTrim p.aisleText) := by
  intro env storeId barcode p inv h
  have hfields :
      inv.inStock = strContains (strToLower p.inStockText) "in stock"
      ∧ inv.aisle = (if strTrim p.aisleText = "" then "Ask store associate"
          else strTrim p.aisleText) := by
    rcases h with ⟨hp, hg⟩ | ⟨hp, hg⟩
    · unfold getWalmartInventory at hg
      rw [hp, Option.some.injEq] at hg
      subst hg
      exact ⟨rfl, rfl⟩
    · unfold getTargetInventory at hg
      rw [hp, Option.some.injEq] at hg
      subst hg
      exact ⟨rfl, rfl⟩
  refine ⟨?_, hfields.2⟩
  rw [hfields.1]
  unfold containsCaseInsensitive
  rw [lower_instock_phrase]

theorem inventory_instock_and_aisle_witness :
    (invPageToInventory Chain.walmart 0 "s1" pageInvW).inStock
        = containsCaseInsensitive pageInvW.inStockText "in stock"
    ∧ (invPageToInventory Chain.walmart 0 "s1" pageInvW).aisle
        = (if strTrim pageInvW.aisleText = "" then "Ask store associate"
            else strTrim pageInvW.aisleText) :=
  inventory_instock_and_aisle envHappy "s1" "012345" pageInvW
    (invPageToInventory Chain.walmart 0 "s1" pageInvW) (Or.inl ⟨rfl, rfl⟩)

theorem jsOrUndefined_ne_zero {v : Option ℚ} {q : ℚ}
    (h : jsOrUndefined v = some q) : q ≠ 0 := by
  cases v with
  | none => exact absurd h (by simp [jsOrUndefined])
  | some r =>
    simp only [jsOrUndefined] at h
    by_cases hr : r = 0
    · rw [if_pos hr] at h
      exact absurd h (by simp)
    · rw [if_neg hr, Option.some.injEq] at h
      subst h
      exact hr

theorem jsOrUndefined_collapse {v : Option ℚ}
    (h : v = none ∨ v = some 0) : jsOrUndefined v = none := by
  rcases h with rfl | rfl
  · rfl
  · simp [jsOrUndefined]

theorem inventory_price_eq {env : Env} {storeId barcode : String}
    {p : InvPage} {inv : StoreInventory}
    (h : (env.walmartInvPage barcode = Except.ok p
          ∧ getWalmartInventory env storeId barcode = some inv)
        ∨ (env.targetInvPage barcode = Except.ok p
          ∧ getTargetInventory env storeId barcode = some inv)) :
    inv.price = jsOrUndefined (jsParseFloat (removeFirst (strTrim p.priceText) "$")) := by
  rcases h with ⟨hp, hg⟩ | ⟨hp, hg⟩
  · unfold getWalmartInventory at hg
    rw [hp, Option.some.injEq] at hg
    subst hg
    rfl
  · unfold getTargetInventory at hg
    rw [hp, Option.some.injEq] at hg
    subst hg
    rfl

/-- C10: a scraped price text that parses to 0 — or fails to parse — yields an
absent `price` (`parseFloat(...) || undefined`), so a present `price` is never
zero. -/
theorem inventory_price_never_zero :
    ∀ (env : Env) (storeId barcode : String),
      (∀ p inv, env.walmartInvPage barcode = Except.ok p →
        getWalmartInventory env storeId barcode = some inv →
        (jsParseFloat (removeFirst (strTrim p.priceText) "$") = none
          ∨ jsParseFloat (removeFirst (strTrim p.priceText) "$") = some 0) →
        inv.price = none)
      ∧ (∀ p inv, env.targetInvPage barcode = Except.ok p →
        getTargetInventory env storeId barcode = some inv →
        (jsParseFloat (removeFirst (strTrim p.priceText) "$") = none
          ∨ jsParseFloat (removeFirst (strTrim p.priceText) "$") = some 0) →
        inv.price = none)
      ∧ (∀ inv, (getWalmartInventory env storeId barcode = some inv
          ∨ getTargetInventory env storeId barcode = some inv) →
        ∀ q, inv.price = some q → q ≠ 0) := by
  intro env storeId barcode
  refine ⟨?_, ?_, ?_⟩
  · intro p inv hp hg hparse
    rw [inventory_price_eq (Or.inl ⟨hp, hg⟩)]
    exact jsOrUndefined_collapse hparse
  · intro p inv hp hg hparse
    rw [inventory_price_eq (Or.inr ⟨hp, hg⟩)]
    exact jsOrUndefined_collapse hparse
  · intro inv hg q hq
    rcases hg with hg | hg
    · cases hp : env.walmartInvPage barcode with
      | error e =>
        unfold getWalmartInventory at hg
        rw [hp] at hg
        exact absurd hg (by simp)
      | ok p =>
        rw [inventory_price_eq (Or.inl ⟨hp, hg⟩)] at hq
        exact jsOrUndefined_ne_zero hq
    · cases hp : env.targetInvPage barcode with
      | error e =>
        unfold getTargetInventory at hg
        rw [hp] at hg
        exact absurd hg (by simp)
      | ok p =>
        rw [inventory_price_eq (Or.inr ⟨hp, hg⟩)] at hq
        exact jsOrUndefined_ne_zero hq

theorem inventory_price_never_zero_witness :
    (invPageToInventory Chain.target 0 "s1" pageInvT).price = none
    ∧ (mkRat 499 100 : ℚ) ≠ 0 := by
  constructor
  · exact (inventory_price_never_zero envHappy "s1" "012345").2.1 pageInvT
      (invPageToInventory Chain.target 0 "s1" pageInvT) rfl rfl (Or.inr (by decide))
  · exact (inventory_price_never_zero envHappy "s1" "012345").2.2
      (invPageToInventory Chain.walmart 0 "s1" pageInvW) (Or.inl rfl)
      (mkRat 499 100) (by decide)

/-- The scraped numeric text denotes a non-negative value: after the skipped
leading whitespace it does not start with a minus sign. -/
def noLeadingMinus (s : String) : Bool :=
  !((s.data.dropWhile (fun c => c.isWhitespace)).head? == some '-')

theorem parseDigitsVal_nonneg (intDs fracDs : List Char) :
    0 ≤ parseDigitsVal intDs fracDs :=
  Rat.mkRat_nonneg (by positivity) _

theorem jsParseFloat_nonneg {s : String} (hs : noLeadingMinus s = true)
    {q : ℚ} (h : jsParseFloat s = some q) : 0 ≤ q := by
  have hneg : ((s.data.dropWhile (fun c => c.isWhitespace)).head? == some '-') = false := by
    unfold noLeadingMinus at hs
    cases hb : ((s.data.dropWhile (fun c => c.isWhitespace)).head? == some '-') with
    | false => rfl
    | true => rw [hb] at hs; exact absurd hs (by decide)
  simp only [jsParseFloat] at h
  rw [hneg] at h
  simp only [Bool.false_or, Bool.false_eq_true, if_false] at h
  cases hplus : ((s.data.dropWhile (fun c => c.isWhitespace)).head? == some '+') with
  | true =>
    rw [hplus, if_pos rfl] at h
    split at h
    · exact absurd h (by simp)
    · rw [Option.some.injEq] at h
      subst h
      exact parseDigitsVal_nonneg _ _
  | false =>
    rw [hplus, if_neg (by decide : ¬(false = true))] at h
    split at h
    · exact absurd h (by simp)
    · rw [Option.some.injEq] at h
      subst h
      exact parseDigitsVal_nonneg _ _

/-- C9 (amended): price and distance are parsed permissively — symbols
stripped, parse failure falling back to an absent value rather than raising —
and the parsed value equals whatever signed number the text denotes; it is
non-negative whenever the stripped text does not begin with a minus sign, but
the code does not enforce non-negativity on adversarial text. -/
theorem parsed_fields_permissive_sign :
    ∀ (env : Env) (storeId barcode : String) (p : InvPage) (inv : StoreInventory)
      (c : Chain) (e : StorePageEntry),
      (((env.walmartInvPage barcode = Except.ok p
          ∧ getWalmartInventory env storeId barcode = some inv)
        ∨ (env.targetInvPage barcode = Except.ok p
          ∧ getTargetInventory env storeId barcode = some inv)) →
        inv.price = jsOrUndefined (jsParseFloat (removeFirst (strTrim p.priceText) "$"))
        ∧ (noLeadingMinus (removeFirst (strTrim p.priceText) "$") = true →
            ∀ q, inv.price = some q → 0 ≤ q))
      ∧ (storeEntryToLocation c e).distance
          = jsParseFloat (strTrim (removeFirst (strTrim e.distanceText) "miles"))
      ∧ (noLeadingMinus (strTrim (removeFirst (strTrim e.distanceText) "miles")) = true →
          ∀ q, (storeEntryToLocation c e).distance = some q → 0 ≤ q) := by
  intro env storeId barcode p inv c e
  refine ⟨?_, rfl, ?_⟩
  · intro h
    refine ⟨inventory_price_eq h, ?_⟩
    intro hnm q hq
    rw [inventory_price_eq h] at hq
    cases hv : jsParseFloat (removeFirst (strTrim p.priceText) "$") with
    | none => rw [hv] at hq; exact absurd hq (by simp [jsOrUndefined])
    | some r =>
      rw [hv] at hq
      simp only [jsOrUndefined] at hq
      by_cases hr : r = 0
      · rw [if_pos hr] at hq; exact absurd hq (by simp)
      · rw [if_neg hr, Option.some.injEq] at hq
        subst hq
        exact jsParseFloat_nonneg hnm hv
  · intro hnm q hq
    exact jsParseFloat_nonneg hnm hq

/-- Environment whose scraped price and distance texts denote negative
numbers. -/
def envC9 : Env :=
  { walmartStoresPage := fun _ => Except.ok
      [{ storeIdAttr := some "N", nameText := "", addressText := "",
         distanceText := "-2 miles" }]
    targetStoresPage := fun _ => Except.ok []
    walmartInvPage := fun _ => Except.ok
      { inStockText := "", priceText := "-3", aisleText := "" }
    targetInvPage := fun _ => Except.error ()
    walmartMetaPage := fun _ => Except.ok pageMetaW
    targetMetaPage := fun _ => Except.error ()
    now := 0 }

/-- C9 counterexample: scraped text "-3" yields a present, negative price, and
scraped text "-2 miles" yields a present, negative distance. -/
theorem negative_price_and_distance_possible :
    (getWalmartInventory envC9 "s1" "012345").map (fun i => i.price)
        = some (some (-3))
    ∧ ((-3 : ℚ) < 0)
    ∧ (findWalmartStores envC9 "90210").map (fun s => s.distance) = [some (-2)]
    ∧ ((-2 : ℚ) < 0) := by decide

theorem parsed_fields_permissive_sign_witness :
    (invPageToInventory Chain.walmart 0 "s1" pageInvW).price
        = jsOrUndefined (jsParseFloat (removeFirst (strTrim pageInvW.priceText) "$"))
    ∧ (0 : ℚ) ≤ mkRat 499 100 := by
  have h := parsed_fields_permissive_sign envHappy "s1" "012345" pageInvW
    (invPageToInventory Chain.walmart 0 "s1" pageInvW) Chain.walmart
    { storeIdAttr := none, nameText := "", addressText := "", distanceText := "" }
  refine ⟨(h.1 (Or.inl ⟨rfl, rfl⟩)).1, ?_⟩
  exact (h.1 (Or.inl ⟨rfl, rfl⟩)).2 (by decide) (mkRat 499 100) (by decide)

/-! ## Candidate ordering and the primary lookup (C1) -/

theorem getProductInfo_with_zip {env : Env} {barcode z : String}
    {pi : ProductInfo}
    (h : getProductInfo env barcode (some z) = some pi) :
    ∃ pi0, (scrapeWalmartProduct env barcode = some pi0
        ∨ (scrapeWalmartProduct env barcode = none
          ∧ scrapeTargetProduct env barcode = some pi0))
      ∧ pi = resolveWithStores env barcode z pi0 := by
  unfold getProductInfo at h
  cases hw : scrapeWalmartProduct env barcode with
  | some p =>
    rw [hw] at h
    simp only [Option.some.injEq] at h
    exact ⟨p, Or.inl rfl, h.symm⟩
  | none =>
    cases ht : scrapeTargetProduct env barcode with
    | none => rw [hw, ht] at h; exact absurd h (by simp)
    | some p =>
      rw [hw, ht] at h
      simp only [Option.some.injEq] at h
      exact ⟨p, Or.inr ⟨rfl, rfl⟩, h.symm⟩

theorem resolveWithStores_inventory (env : Env) (barcode z : String)
    (pi : ProductInfo) {h : StoreLocation} {t : List StoreLocation}
    (hs : allStoresFor env z = h :: t) :
    (∀ inv, getInventoryFor env h.chain h.storeId barcode = some inv →
      (resolveWithStores env barcode z pi).inventory = inv)
    ∧ (getInventoryFor env h.chain h.storeId barcode = none →
      (resolveWithStores env barcode z pi).inventory = pi.inventory) := by
  unfold resolveWithStores
  rw [hs]
  constructor
  · intro inv hi
    simp only [hi]
    split <;> try split
    all_goals rfl
  · intro hi
    simp only [hi]
    split <;> try split
    all_goals rfl

/-- C1 (amended): the merged cross-chain candidate list is the stable sort of
the concatenated finder results under the comparator key
`distance || Infinity`, which treats an unknown (absent/NaN) or zero distance
as Infinity; the list is ascending in that key — so entries with unknown OR
zero distance sort last, not only unknown ones — and the primary inventory
lookup, whenever attempted, is issued against the head of this order: the
key-minimal candidate, ties broken by input order. -/
theorem candidate_order_and_primary :
    ∀ (env : Env) (barcode z : String),
      List.Perm (allStoresFor env z)
        (findWalmartStores env z ++ findTargetStores env z)
      ∧ List.Pairwise (fun a b => storeLe a b = true) (allStoresFor env z)
      ∧ (∀ h t, allStoresFor env z = h :: t →
          (∀ s ∈ findWalmartStores env z ++ findTargetStores env z,
            storeLe h s = true)
          ∧ ((findWalmartStores env z ++ findTargetStores env z).filter
              (fun s => distKey s.distance == distKey h.distance)).head? = some h
          ∧ (∀ pi, getProductInfo env barcode (some z) = some pi →
              (∀ inv, getInventoryFor env h.chain h.storeId barcode = some inv →
                pi.inventory = inv)
              ∧ (getInventoryFor env h.chain h.storeId barcode = none →
                pi.inventory.storeId = "unknown"))) := by
  intro env barcode z
  refine ⟨sortBy_perm _ _, sortBy_pairwise storeLe_total storeLe_trans _, ?_⟩
  intro h t hs
  have hp : ∀ x y : StoreLocation,
      (distKey x.distance == distKey h.distance) = true →
      (distKey y.distance == distKey h.distance) = true →
      storeLe x y = true := by
    intro x y hx hy
    rw [beq_iff_eq] at hx hy
    unfold storeLe
    rw [hx, hy]
    exact optLe_refl _
  refine ⟨sortBy_head_le storeLe_total storeLe_trans hs, ?_, ?_⟩
  · have hf := filter_sortBy hp
      (findWalmartStores env z ++ findTargetStores env z)
    unfold allStoresFor sortStores at hs
    rw [hs] at hf
    rw [← hf]
    simp [List.filter]
  · intro pi hg
    obtain ⟨pi0, hpi0, hres⟩ := getProductInfo_with_zip hg
    have hfields := scrape_fields
      (by rcases hpi0 with h1 | ⟨_, h1⟩; exacts [Or.inl h1, Or.inr h1])
    subst hres
    constructor
    · exact fun inv hi => (resolveWithStores_inventory env barcode z pi0 hs).1 inv hi
    · intro hi
      rw [(resolveWithStores_inventory env barcode z pi0 hs).2 hi]
      exact hfields.1

/-- Environment exhibiting the zero-distance flaw: a store at distance 0 and
one at distance 1. -/
def envC1 : Env :=
  { walmartStoresPage := fun _ => Except.ok
      [{ storeIdAttr := some "A", nameText := "Store A", addressText := "",
         distanceText := "0 miles" }]
    targetStoresPage := fun _ => Except.ok
      [{ storeIdAttr := some "B", nameText := "Store B", addressText := "",
         distanceText := "1 miles" }]
    walmartInvPage := fun _ => Except.ok pageInvW
    targetInvPage := fun _ => Except.ok
      { inStockText := "In Stock", priceText := "$5.49", aisleText := "B2" }
    walmartMetaPage := fun _ => Except.ok pageMetaW
    targetMetaPage := fun _ => Except.error ()
    now := 0 }

/-- C1 counterexample: the candidate at known distance 0 sorts after the one
at distance 1 (`0 || Infinity` is `Infinity` in JS), so the merged list is not
ascending by distance with only unknown distances last, and the primary
inventory is queried at the distance-1 store "B" instead of the
minimum-distance store "A". -/
theorem zero_distance_sorts_last :
    (allStoresFor envC1 "90210").map (fun s => (s.storeId, s.distance))
      = [("B", some 1), ("A", some 0)]
    ∧ (getProductInfo envC1 "012345" (some "90210")).map
        (fun pi => pi.inventory.storeId) = some "B"
    ∧ (0 : ℚ) < 1 := by decide

/-- The two store locations of `envC1`, as the finders produce them. -/
def storeAC1 : StoreLocation :=
  { storeId := "A", name := "Store A", address := "", distance := some 0,
    chain := Chain.walmart }

def storeBC1 : StoreLocation :=
  { storeId := "B", name := "Store B", address := "", distance := some 1,
    chain := Chain.target }

theorem candidate_order_and_primary_witness :
    (∀ s ∈ findWalmartStores envC1 "90210" ++ findTargetStores envC1 "90210",
      storeLe storeBC1 s = true)
    ∧ ((findWalmartStores envC1 "90210" ++ findTargetStores envC1 "90210").filter
        (fun s => distKey s.distance == distKey storeBC1.distance)).head?
      = some storeBC1 := by
  have h := ((candidate_order_and_primary envC1 "012345" "90210").2.2
    storeBC1 [storeAC1] (by decide))
  exact ⟨h.1, h.2.1⟩

/-! ## Alternative stores (C3) -/

theorem altsFor_length_le (env : Env) (barcode : String)
    (rest : List StoreLocation) : (altsFor env barcode rest).length ≤ 3 := by
  unfold altsFor
  calc (List.filterMap _ (rest.take 3)).length
      ≤ (rest.take 3).length := List.length_filterMap_le _ _
    _ ≤ 3 := by
        rw [List.length_take]
        exact min_le_left _ _

theorem altsFor_inStock {env : Env} {barcode : String}
    {rest : List StoreLocation} :
    ∀ a ∈ altsFor env barcode rest, a.inStock = true := by
  intro a ha
  unfold altsFor at ha
  rcases List.mem_filterMap.mp ha with ⟨st, hst, hm⟩
  cases hg : getInventoryFor env st.chain st.storeId barcode with
  | none =>
    simp only [hg] at hm
    exact absurd hm (by simp)
  | some si =>
    simp only [hg] at hm
    by_cases hs : si.inStock = true
    · rw [if_pos hs, Option.some.injEq] at hm
      subst hm
      exact hs
    · rw [if_neg hs] at hm
      exact absurd hm (by simp)

/-- C3 (amended): when `alternativeStores` is present it has at most 3
entries, each in stock, it is nonempty (the field is omitted when no queried
alternative is in stock), it is gathered only when the primary inventory is
absent or out of stock, and it is exactly the in-order collection over the
candidates at positions 2–4 — which preserves nearest-first order but does
NOT exclude entries sharing the primary inventory's storeId. -/
theorem alternative_stores_invariants :
    ∀ (env : Env) (barcode z : String) (pi : ProductInfo)
      (alts : List StoreInventory),
      getProductInfo env barcode (some z) = some pi →
      pi.alternativeStores = some alts →
      alts.length ≤ 3
      ∧ (∀ a ∈ alts, a.inStock = true)
      ∧ alts ≠ []
      ∧ pi.inventory.inStock = false
      ∧ (∀ h t, allStoresFor env z = h :: t → alts = altsFor env barcode t) := by
  intro env barcode z pi alts hg halts
  obtain ⟨pi0, hpi0, hres⟩ := getProductInfo_with_zip hg
  have hfields := scrape_fields
    (by rcases hpi0 with h1 | ⟨_, h1⟩; exacts [Or.inl h1, Or.inr h1])
  subst hres
  cases hs : allStoresFor env z with
  | nil =>
    unfold resolveWithStores at halts
    rw [hs] at halts
    rw [hfields.2.2] at halts
    exact absurd halts (by simp)
  | cons h0 t0 =>
    have hinv := resolveWithStores_inventory env barcode z pi0 hs
    unfold resolveWithStores at halts
    rw [hs] at halts
    cases hi : getInventoryFor env h0.chain h0.storeId barcode with
    | some inv =>
      simp only [hi] at halts
      cases hstock : inv.inStock with
      | true =>
        rw [hstock] at halts
        simp only [if_true] at halts
        have : pi0.alternativeStores = some alts := halts
        rw [hfields.2.2] at this
        exact absurd this (by simp)
      | false =>
        rw [hstock] at halts
        simp only [Bool.false_eq_true, if_false] at halts
        by_cases hlen : (altsFor env barcode t0).length > 0
        · rw [if_pos hlen] at halts
          have halts2 : some (altsFor env barcode t0) = some alts := halts
          rw [Option.some.injEq] at halts2
          subst halts2
          refine ⟨altsFor_length_le env barcode t0, altsFor_inStock, ?_, ?_, ?_⟩
          · exact List.ne_nil_of_length_pos hlen
          · rw [hinv.1 inv hi]
            exact hstock
          · intro h1 t1 hs1
            injection hs1 with e1 e2
            rw [e2]
        · rw [if_neg hlen] at halts
          have : pi0.alternativeStores = some alts := halts
          rw [hfields.2.2] at this
          exact absurd this (by simp)
    | none =>
      simp only [hi] at halts
      simp only [Bool.false_eq_true, if_false] at halts
      by_cases hlen : (altsFor env barcode t0).length > 0
      · rw [if_pos hlen] at halts
        have halts2 : some (altsFor env barcode t0) = some alts := halts
        rw [Option.some.injEq] at halts2
        subst halts2
        refine ⟨altsFor_length_le env barcode t0, altsFor_inStock, ?_, ?_, ?_⟩
        · exact List.ne_nil_of_length_pos hlen
        · rw [hinv.2 hi]
          exact hfields.2.1
        · intro h1 t1 hs1
          injection hs1 with e1 e2
          rw [e2]
      · rw [if_neg hlen] at halts
        have : pi0.alternativeStores = some alts := halts
        rw [hfields.2.2] at this
        exact absurd this (by simp)

/-- Environment in which the nearest candidate (Walmart "123") is out of
stock and the next candidate (Target, same storeId string "123") is in
stock. -/
def envC3 : Env :=
  { walmartStoresPage := fun _ => Except.ok
      [{ storeIdAttr := some "123", nameText := "W", addressText := "",
         distanceText := "1 miles" }]
    targetStoresPage := fun _ => Except.ok
      [{ storeIdAttr := some "123", nameText := "T", addressText := "",
         distanceText := "2 miles" }]
    walmartInvPage := fun _ => Except.ok pageInvT
    targetInvPage := fun _ => Except.ok
      { inStockText := "In Stock", priceText := "$5.49", aisleText := "B2" }
    walmartMetaPage := fun _ => Except.ok pageMetaW
    targetMetaPage := fun _ => Except.error ()
    now := 0 }

/-- C3 counterexample: an alternative store shares the primary inventory's
storeId "123" (both known, i.e. distinct from the "unknown" placeholder) —
the code never filters alternatives by storeId. -/
theorem alternative_shares_primary_storeId :
    (getProductInfo envC3 "012345" (some "90210")).map
        (fun pi => (pi.inventory.storeId, pi.inventory.inStock,
          pi.alternativeStores.map (fun l => l.map (fun a => (a.storeId, a.inStock)))))
      = some ("123", false, some [("123", true)])
    ∧ ("123" : String) ≠ "unknown" := by decide

/-- The product resolved by `envC3`, used to instantiate the C3 theorem. -/
def piC3 : ProductInfo :=
  { name := "Widget"
    image := "img"
    barcode := "012345"
    inventory := invPageToInventory Chain.walmart 0 "123" pageInvT
    alternativeStores := some [invPageToInventory Chain.target 0 "123"
      { inStockText := "In Stock", priceText := "$5.49", aisleText := "B2" }]
    brand := some "Acme" }

theorem alternative_stores_invariants_witness :
    ∃ alts, piC3.alternativeStores = some alts
      ∧ alts.length ≤ 3
      ∧ (∀ a ∈ alts, a.inStock = true)
      ∧ alts ≠ []
      ∧ piC3.inventory.inStock = false := by
  have h := alternative_stores_invariants envC3 "012345" "90210" piC3
    [invPageToInventory Chain.target 0 "123"
      { inStockText := "In Stock", priceText := "$5.49", aisleText := "B2" }]
    (by decide) (by decide)
  exact ⟨_, rfl, h.1, h.2.1, h.2.2.1, h.2.2.2.1⟩

/-! ## Association-bucket lemmas for the grouping folds -/

theorem lookup_addToBucket_self {β : Type} (k : String) (a : β)
    (gs : List (String × List β)) :
    (addToBucket k a gs).lookup k = some (bucketOf gs k ++ [a]) := by
  induction gs with
  | nil => simp [addToBucket, bucketOf, List.lookup]
  | cons kb rest ih =>
    obtain ⟨k1, b1⟩ := kb
    by_cases hk : k1 = k
    · subst hk
      simp [addToBucket, bucketOf, List.lookup]
    · simp only [addToBucket, if_neg hk]
      have hne : (k == k1) = false := by simp [Ne.symm hk]
      simp [List.lookup, hne, bucketOf, ih]

theorem lookup_addToBucket_ne {β : Type} {k k1 : String} (hne : k1 ≠ k)
    (a : β) (gs : List (String × List β)) :
    (addToBucket k a gs).lookup k1 = gs.lookup k1 := by
  have h0 : (k1 == k) = false := by simp [hne]
  induction gs with
  | nil =>
    simp [addToBucket, List.lookup, h0]
  | cons kb rest ih =>
    obtain ⟨k2, b2⟩ := kb
    by_cases hk : k2 = k
    · subst hk
      have h1 : (k1 == k2) = false := by simp [hne]
      simp [addToBucket, List.lookup, h1]
    · simp only [addToBucket, if_neg hk]
      cases h1 : (k1 == k2) <;> simp [List.lookup, h1, ih]

theorem map_fst_addToBucket {β : Type} (k : String) (a : β)
    (gs : List (String × List β)) :
    (addToBucket k a gs).map Prod.fst =
      if k ∈ gs.map Prod.fst then gs.map Prod.fst
      else gs.map Prod.fst ++ [k] := by
  induction gs with
  | nil => simp [addToBucket]
  | cons kb rest ih =>
    obtain ⟨k2, b2⟩ := kb
    by_cases hk : k2 = k
    · subst hk
      simp [addToBucket]
    · simp only [addToBucket, if_neg hk, List.map_cons]
      by_cases hmem : k ∈ rest.map Prod.fst
      · rw [if_pos hmem] at ih
        rw [if_pos (by simp [hmem]), ih]
      · rw [if_neg hmem] at ih
        rw [if_neg (by simp [hmem, Ne.symm hk]), ih]
        simp

theorem bucketOf_nil {β : Type} (L : String) :
    bucketOf ([] : List (String × List β)) L = [] := rfl

theorem bucketOf_addToBucket_self {β : Type} (k : String) (a : β)
    (gs : List (String × List β)) :
    bucketOf (addToBucket k a gs) k = bucketOf gs k ++ [a] := by
  unfold bucketOf
  rw [lookup_addToBucket_self]
  rfl

theorem bucketOf_addToBucket_ne {β : Type} {k k1 : String} (hne : k1 ≠ k)
    (a : β) (gs : List (String × List β)) :
    bucketOf (addToBucket k a gs) k1 = bucketOf gs k1 := by
  unfold bucketOf
  rw [lookup_addToBucket_ne hne]

/-- Characterization of the generic grouping fold: the bucket of `L` collects
exactly the items keyed `L`, in input order. -/
theorem bucketOf_groupFold {β : Type} (keyf : β → String) (items : List β)
    (gs : List (String × List β)) (L : String) :
    bucketOf (items.foldl (fun gs it => addToBucket (keyf it) it gs) gs) L
      = bucketOf gs L ++ items.filter (fun it => keyf it == L) := by
  induction items generalizing gs with
  | nil => simp
  | cons it rest ih =>
    simp only [List.foldl_cons]
    rw [ih]
    by_cases hk : keyf it = L
    · subst hk
      rw [bucketOf_addToBucket_self]
      simp [List.filter]
    · rw [bucketOf_addToBucket_ne (Ne.symm hk)]
      have : (keyf it == L) = false := by simp [hk]
      simp [List.filter, this]

theorem keys_mono_addToBucket {β : Type} (k : String) (a : β)
    (gs : List (String × List β)) {x : String}
    (hx : x ∈ gs.map Prod.fst) : x ∈ (addToBucket k a gs).map Prod.fst := by
  rw [map_fst_addToBucket]
  split
  · exact hx
  · exact List.mem_append_left _ hx

theorem key_mem_addToBucket {β : Type} (k : String) (a : β)
    (gs : List (String × List β)) : k ∈ (addToBucket k a gs).map Prod.fst := by
  rw [map_fst_addToBucket]
  split
  · assumption
  · simp

theorem keys_mono_groupFold {β : Type} (keyf : β → String) (items : List β)
    (gs : List (String × List β)) {x : String} (hx : x ∈ gs.map Prod.fst) :
    x ∈ (items.foldl (fun gs it => addToBucket (keyf it) it gs) gs).map Prod.fst := by
  induction items generalizing gs with
  | nil => exact hx
  | cons it rest ih =>
    simp only [List.foldl_cons]
    exact ih _ (keys_mono_addToBucket _ _ _ hx)

theorem mem_keys_groupFold {β : Type} (keyf : β → String) (items : List β)
    (gs : List (String × List β)) :
    ∀ it ∈ items, keyf it ∈
      (items.foldl (fun gs it => addToBucket (keyf it) it gs) gs).map Prod.fst := by
  induction items generalizing gs with
  | nil => intro it hit; exact absurd hit (List.not_mem_nil it)
  | cons j rest ih =>
    intro it hit
    simp only [List.foldl_cons]
    rcases List.mem_cons.mp hit with rfl | hrest
    · exact keys_mono_groupFold keyf rest _ (key_mem_addToBucket _ _ _)
    · exact ih _ it hrest

theorem keys_nodup_addToBucket {β : Type} (k : String) (a : β)
    {gs : List (String × List β)} (hnd : (gs.map Prod.fst).Nodup) :
    ((addToBucket k a gs).map Prod.fst).Nodup := by
  rw [map_fst_addToBucket]
  split
  · exact hnd
  · rename_i hmem
    rw [List.nodup_append]
    exact ⟨hnd, List.nodup_singleton _, by simpa using hmem⟩

theorem keys_nodup_groupFold {β : Type} (keyf : β → String) (items : List β)
    {gs : List (String × List β)} (hnd : (gs.map Prod.fst).Nodup) :
    ((items.foldl (fun gs it => addToBucket (keyf it) it gs) gs).map Prod.fst).Nodup := by
  induction items generalizing gs with
  | nil => exact hnd
  | cons it rest ih =>
    simp only [List.foldl_cons]
    exact ih (keys_nodup_addToBucket _ _ hnd)

/-! ## `Object.keys` enumeration is a permutation of the insertion order -/

theorem filter_not_filter_perm {α : Type} (p : α → Bool) (l : List α) :
    List.Perm (l.filter p ++ l.filter (fun x => !(p x))) l := by
  induction l with
  | nil => simp
  | cons a t ih =>
    cases hpa : p a with
    | true =>
      simp only [List.filter, hpa, Bool.not_true]
      exact ih.cons a
    | false =>
      simp only [List.filter, hpa, Bool.not_false]
      exact List.perm_middle.trans (ih.cons a)

theorem jsObjectKeys_perm (ks : List String) :
    List.Perm (jsObjectKeys ks) ks := by
  unfold jsObjectKeys
  exact ((sortBy_perm numKeyLe _).append
    (List.Perm.refl _)).trans (filter_not_filter_perm isArrayIndexKey ks)

/-! ## Flattening sorted label groups -/

theorem flatMap_congr_mem {α β : Type} {l : List α} {f g : α → List β}
    (h : ∀ a ∈ l, f a = g a) : l.flatMap f = l.flatMap g := by
  induction l with
  | nil => rfl
  | cons a t ih =>
    simp only [List.flatMap_cons]
    rw [h a (List.mem_cons_self a t), ih (fun x hx => h x (List.mem_cons_of_mem a hx))]

theorem filter_key_of_ne {β : Type} (keyf : β → String) {L M : String}
    (h : M ≠ L) (items : List β) :
    (items.filter (fun it => !(keyf it == L))).filter (fun it => keyf it == M)
      = items.filter (fun it => keyf it == M) := by
  induction items with
  | nil => rfl
  | cons a t ih =>
    cases hM : (keyf a == M) with
    | true =>
      have hL : (keyf a == L) = false := by
        rw [beq_iff_eq] at hM
        simp [hM, h]
      simp [List.filter, hM, hL, ih]
    | false =>
      cases hL : (keyf a == L) <;> simp [List.filter, hM, hL, ih]

theorem flatMap_filter_perm {β : Type} (keyf : β → String) :
    ∀ (ls : List String) (items : List β), ls.Nodup →
      (∀ it ∈ items, keyf it ∈ ls) →
      List.Perm (ls.flatMap (fun L => items.filter (fun it => keyf it == L))) items := by
  intro ls
  induction ls with
  | nil =>
    intro items _ hcov
    cases items with
    | nil => exact List.Perm.refl _
    | cons it rest => exact absurd (hcov it (List.mem_cons_self it rest)) (List.not_mem_nil _)
  | cons L ls ih =>
    intro items hnd hcov
    simp only [List.flatMap_cons]
    have hLn : L ∉ ls := (List.nodup_cons.mp hnd).1
    have hstep : ls.flatMap (fun M => items.filter (fun it => keyf it == M))
        = ls.flatMap (fun M =>
            (items.filter (fun it => !(keyf it == L))).filter (fun it => keyf it == M)) := by
      apply flatMap_congr_mem
      intro M hM
      exact (filter_key_of_ne keyf (fun he => hLn (by rw [← he]; exact hM)) items).symm
    rw [hstep]
    have hcov2 : ∀ it ∈ items.filter (fun it => !(keyf it == L)), keyf it ∈ ls := by
      intro it hit
      rcases List.mem_filter.mp hit with ⟨hmem, hne⟩
      rcases List.mem_cons.mp (hcov it hmem) with he | hm
      · exfalso
        have hbeq : (keyf it == L) = true := by rw [beq_iff_eq]; exact he
        rw [hbeq] at hne
        exact absurd hne (by decide)
      · exact hm
    have hih := ih (items.filter (fun it => !(keyf it == L)))
      (List.nodup_cons.mp hnd).2 hcov2
    exact (List.Perm.append_left _ hih).trans
      (filter_not_filter_perm (fun it => keyf it == L) items)

theorem flatMap_filter_sorted {β : Type} (keyf : β → String) (key : String → ℕ)
    (items : List β) :
    ∀ ls : List String, List.Pairwise (fun a b => key a ≤ key b) ls →
      List.Pairwise (fun x y => key (keyf x) ≤ key (keyf y))
        (ls.flatMap (fun L => items.filter (fun it => keyf it == L))) := by
  intro ls
  induction ls with
  | nil => intro _; simp
  | cons L ls ih =>
    intro hp
    rcases List.pairwise_cons.mp hp with ⟨hL, hls⟩
    simp only [List.flatMap_cons]
    rw [List.pairwise_append]
    refine ⟨?_, ih hls, ?_⟩
    · apply List.pairwise_of_forall_mem_list
      intro a ha b hb
      rcases List.mem_filter.mp ha with ⟨_, ha2⟩
      rcases List.mem_filter.mp hb with ⟨_, hb2⟩
      rw [beq_iff_eq] at ha2 hb2
      rw [ha2, hb2]
    · intro a ha b hb
      rcases List.mem_filter.mp ha with ⟨_, ha2⟩
      rcases List.mem_flatMap.mp hb with ⟨M, hM, hbM⟩
      rcases List.mem_filter.mp hbM with ⟨_, hb2⟩
      rw [beq_iff_eq] at ha2 hb2
      rw [ha2, hb2]
      exact hL M hM

theorem filter_flatMap_not_mem {β : Type} (keyf : β → String) (items : List β)
    {L0 : String} :
    ∀ ls : List String, L0 ∉ ls →
      (ls.flatMap (fun L => items.filter (fun it => keyf it == L))).filter
        (fun it => keyf it == L0) = [] := by
  intro ls
  induction ls with
  | nil => intro _; rfl
  | cons L ls ih =>
    intro hL0
    simp only [List.flatMap_cons, List.filter_append]
    rw [ih (fun hm => hL0 (List.mem_cons_of_mem L hm))]
    rw [List.append_nil]
    rw [List.filter_eq_nil_iff]
    intro a ha
    rcases List.mem_filter.mp ha with ⟨_, ha2⟩
    rw [beq_iff_eq] at ha2
    intro hc
    rw [beq_iff_eq] at hc
    exact hL0 (by rw [← hc, ha2]; exact List.mem_cons_self L ls)

theorem filter_flatMap_mem {β : Type} (keyf : β → String) (items : List β)
    {L0 : String} :
    ∀ ls : List String, ls.Nodup → L0 ∈ ls →
      (ls.flatMap (fun L => items.filter (fun it => keyf it == L))).filter
        (fun it => keyf it == L0) = items.filter (fun it => keyf it == L0) := by
  intro ls
  induction ls with
  | nil => intro _ h; exact absurd h (List.not_mem_nil _)
  | cons L ls ih =>
    intro hnd hL0
    simp only [List.flatMap_cons, List.filter_append]
    by_cases he : L = L0
    · subst he
      rw [filter_flatMap_not_mem keyf items ls (List.nodup_cons.mp hnd).1]
      rw [List.append_nil, List.filter_filter]
      apply List.filter_congr
      intro a _
      cases h : (keyf a == L) <;> simp [h]
    · have : items.filter (fun it => keyf it == L0) =
          (items.filter (fun it => keyf it == L)).filter (fun it => keyf it == L0)
            ++ (ls.flatMap (fun M => items.filter (fun it => keyf it == M))).filter
              (fun it => keyf it == L0) := by
        rw [ih (List.nodup_cons.mp hnd).2
          (by rcases List.mem_cons.mp hL0 with h | h; exacts [absurd h.symm he, h])]
        have hz : (items.filter (fun it => keyf it == L)).filter
            (fun it => keyf it == L0) = [] := by
          rw [List.filter_eq_nil_iff]
          intro a ha hc
          rcases List.mem_filter.mp ha with ⟨_, ha2⟩
          rw [beq_iff_eq] at ha2 hc
          exact he (by rw [← ha2, hc])
        rw [hz, List.nil_append]
      rw [← this]

/-! ## The optimized path (C5) -/

/-- Effective numeric sort key of an item in `optimizeRoute`: the key of its
raw aisle label (label "Other" — hence key 998 — for null/empty aisles). -/
def itemAisleKey (it : PantryItem) : ℕ :=
  getAisleNumber (some (aisleLabel it))

theorem optimizeRoute_eq_flatMap (items : List PantryItem) :
    optimizeRoute items
      = (sortBy aisleLe (jsObjectKeys ((aisleGroups items).map Prod.fst))).flatMap
          (fun L => items.filter (fun it => aisleLabel it == L)) := by
  unfold optimizeRoute
  apply flatMap_congr_mem
  intro L hL
  show bucketOf (aisleGroups items) L = _
  unfold aisleGroups
  rw [bucketOf_groupFold, bucketOf_nil, List.nil_append]

theorem aisleLabels_nodup (items : List PantryItem) :
    ((aisleGroups items).map Prod.fst).Nodup := by
  unfold aisleGroups
  exact keys_nodup_groupFold aisleLabel items (by simp)

theorem aisleLabel_mem_labels {items : List PantryItem} {it : PantryItem}
    (h : it ∈ items) :
    aisleLabel it ∈ (aisleGroups items).map Prod.fst := by
  unfold aisleGroups
  exact mem_keys_groupFold aisleLabel items [] it h

/-- C5 (amended): `optimizedPath` is a permutation of the given item list
(no drops or duplicates), ordered ascending by the numeric key of each item's
raw aisle label — the first run of digits, with sentinel 998 when the label
has no digits — where an absent/null/empty aisle is grouped under the label
"Other" and therefore gets the same sentinel 998 as other digit-free labels
(not a larger one); items sharing a raw aisle label keep their input order,
while distinct labels of equal numeric key are ordered by the object's key
enumeration (integer-like labels first, ascending, then first-appearance
order) rather than by item input order. -/
theorem optimizeRoute_spec :
    ∀ items : List PantryItem,
      List.Perm (optimizeRoute items) items
      ∧ List.Pairwise (fun a b => itemAisleKey a ≤ itemAisleKey b)
          (optimizeRoute items)
      ∧ ∀ L, (optimizeRoute items).filter (fun it => aisleLabel it == L)
          = items.filter (fun it => aisleLabel it == L) := by
  intro items
  have hnd0 := aisleLabels_nodup items
  have hperm : List.Perm
      (sortBy aisleLe (jsObjectKeys ((aisleGroups items).map Prod.fst)))
      ((aisleGroups items).map Prod.fst) :=
    (sortBy_perm _ _).trans (jsObjectKeys_perm _)
  have hnd : (sortBy aisleLe (jsObjectKeys ((aisleGroups items).map Prod.fst))).Nodup :=
    hperm.nodup_iff.mpr hnd0
  have hcov : ∀ it ∈ items,
      aisleLabel it ∈ sortBy aisleLe (jsObjectKeys ((aisleGroups items).map Prod.fst)) := by
    intro it hit
    exact hperm.mem_iff.mpr (aisleLabel_mem_labels hit)
  rw [optimizeRoute_eq_flatMap]
  refine ⟨flatMap_filter_perm aisleLabel _ items hnd hcov, ?_, ?_⟩
  · have hpair := sortBy_pairwise aisleLe_total aisleLe_trans
      (jsObjectKeys ((aisleGroups items).map Prod.fst))
    have hpair2 : List.Pairwise
        (fun a b => getAisleNumber (some a) ≤ getAisleNumber (some b))
        (sortBy aisleLe (jsObjectKeys ((aisleGroups items).map Prod.fst))) := by
      refine hpair.imp ?_
      intro a b h
      simpa [aisleLe] using h
    exact flatMap_filter_sorted aisleLabel (fun L => getAisleNumber (some L))
      items _ hpair2
  · intro L
    by_cases hL : L ∈ sortBy aisleLe (jsObjectKeys ((aisleGroups items).map Prod.fst))
    · exact filter_flatMap_mem aisleLabel items _ hnd hL
    · rw [filter_flatMap_not_mem aisleLabel items _ hL]
      symm
      rw [List.filter_eq_nil_iff]
      intro a ha hc
      rw [beq_iff_eq] at hc
      exact hL (hc ▸ hcov a ha)

/-- Item with a null aisle (claim key 999; the code groups it under "Other",
key 998). -/
def itemNoAisle : PantryItem :=
  { id := "n", barcode := "n", name := "NoAisle", quantity := 1, dateAdded := 0,
    image := "", prices := [], aisle := none }

/-- Item whose aisle string has no digits (key 998). -/
def itemZebra : PantryItem :=
  { id := "z", barcode := "z", name := "Zebra", quantity := 1, dateAdded := 0,
    image := "", prices := [], aisle := some "Zebra" }

/-- C5 counterexample: the null-aisle item keeps its place before the
digit-free "Zebra" item, although the claim's key assigns it the largest
sentinel 999 > 998 and so requires it to sort after — the path is not
ascending in the claim's key. -/
theorem null_aisle_does_not_sort_last :
    (optimizeRoute [itemNoAisle, itemZebra]).map (fun it => it.id) = ["n", "z"]
    ∧ getAisleNumber itemNoAisle.aisle = 999
    ∧ getAisleNumber itemZebra.aisle = 998
    ∧ (998 : ℕ) < 999 := by decide

/-! ## The per-store partition (C6) -/

/-- An item qualifies for store `s` when its first price observation names
`s` and its quantity is positive. -/
def storeQualifies (s : String) (it : PantryItem) : Bool :=
  match it.prices with
  | [] => false
  | p :: _ => p.store == s && decide (it.quantity > 0)

theorem lookup_eq_none_iff {β : Type} (gs : List (String × List β)) (s : String) :
    gs.lookup s = none ↔ s ∉ gs.map Prod.fst := by
  induction gs with
  | nil => simp [List.lookup]
  | cons kb rest ih =>
    obtain ⟨k, b⟩ := kb
    cases hks : (s == k) with
    | true =>
      rw [beq_iff_eq] at hks
      subst hks
      simp [List.lookup]
    | false =>
      have : s ≠ k := by simpa using hks
      simp [List.lookup, hks, ih, this]

theorem bucketOf_append_empty {β : Type} (gs : List (String × List β))
    (s L : String) : bucketOf (gs ++ [(s, ([] : List β))]) L = bucketOf gs L := by
  induction gs with
  | nil =>
    unfold bucketOf
    cases h : (L == s) <;> simp [List.lookup, h]
  | cons kb rest ih =>
    obtain ⟨k, b⟩ := kb
    unfold bucketOf
    cases h : (L == k) <;> simp only [List.cons_append, List.lookup, h]
    exact ih

theorem bucketOf_storeStep (gs : List (String × List PantryItem))
    (it : PantryItem) (L : String) :
    bucketOf (storeStep gs it) L
      = bucketOf gs L ++ (if storeQualifies L it = true then [it] else []) := by
  cases hpr : it.prices with
  | nil =>
    simp [storeStep, storeQualifies, hpr]
  | cons p ps =>
    simp only [storeStep, storeQualifies, hpr]
    have hm1 : bucketOf
        (if (gs.lookup p.store).isSome then gs else gs ++ [(p.store, [])]) L
        = bucketOf gs L := by
      split
      · rfl
      · exact bucketOf_append_empty gs p.store L
    by_cases hq : it.quantity > 0
    · rw [if_pos hq]
      by_cases hst : p.store = L
      · subst hst
        rw [bucketOf_addToBucket_self, hm1]
        have : (p.store == p.store && decide (it.quantity > 0)) = true := by
          simp [hq]
        rw [if_pos this]
      · rw [bucketOf_addToBucket_ne (Ne.symm hst), hm1]
        have : (p.store == L && decide (it.quantity > 0)) = false := by
          simp [hst]
        rw [if_neg (by simp [this]), List.append_nil]
    · rw [if_neg hq, hm1]
      have : (p.store == L && decide (it.quantity > 0)) = false := by
        simp [hq]
      rw [if_neg (by simp [this]), List.append_nil]

theorem bucketOf_storeFold (items : List PantryItem)
    (gs : List (String × List PantryItem)) (L : String) :
    bucketOf (items.foldl storeStep gs) L
      = bucketOf gs L ++ items.filter (storeQualifies L) := by
  induction items generalizing gs with
  | nil => simp
  | cons it rest ih =>
    simp only [List.foldl_cons]
    rw [ih, bucketOf_storeStep]
    cases hq : storeQualifies L it <;> simp [List.filter, hq]

theorem bucketOf_storeMap (items : List PantryItem) (L : String) :
    bucketOf (storeMap items) L = items.filter (storeQualifies L) := by
  unfold storeMap
  rw [bucketOf_storeFold, bucketOf_nil, List.nil_append]

theorem keys_nodup_storeStep {gs : List (String × List PantryItem)}
    (hnd : (gs.map Prod.fst).Nodup) (it : PantryItem) :
    ((storeStep gs it).map Prod.fst).Nodup := by
  cases hpr : it.prices with
  | nil => simpa [storeStep, hpr] using hnd
  | cons p ps =>
    simp only [storeStep, hpr]
    have hm1 : ((if (gs.lookup p.store).isSome then gs
        else gs ++ [(p.store, [])]).map Prod.fst).Nodup := by
      split
      · exact hnd
      · rename_i hns
        rw [List.map_append, List.nodup_append]
        refine ⟨hnd, by simp, ?_⟩
        intro x hx
        simp only [List.map_cons, List.map_nil, List.mem_cons,
          List.not_mem_nil, or_false]
        intro he
        subst he
        cases h2 : gs.lookup p.store with
        | some c => rw [h2] at hns; exact absurd hns (by simp)
        | none => exact ((lookup_eq_none_iff gs p.store).mp h2) hx
    split
    · exact keys_nodup_addToBucket _ _ hm1
    · exact hm1

theorem keys_nodup_storeMap (items : List PantryItem) :
    ((storeMap items).map Prod.fst).Nodup := by
  unfold storeMap
  have haux : ∀ (gs : List (String × List PantryItem)),
      (gs.map Prod.fst).Nodup →
      ((items.foldl storeStep gs).map Prod.fst).Nodup := by
    induction items with
    | nil => intro gs h; exact h
    | cons it rest ih =>
      intro gs h
      simp only [List.foldl_cons]
      exact ih _ (keys_nodup_storeStep h it)
  exact haux [] (by simp)

theorem mem_pair_lookup {β : Type} :
    ∀ {gs : List (String × List β)}, ((gs.map Prod.fst).Nodup) →
      ∀ {s : String} {b : List β}, (s, b) ∈ gs → gs.lookup s = some b := by
  intro gs
  induction gs with
  | nil => intro _ s b h; exact absurd h (List.not_mem_nil _)
  | cons kb rest ih =>
    obtain ⟨k, c⟩ := kb
    intro hnd s b h
    rcases List.mem_cons.mp h with he | hm
    · injection he with e1 e2
      subst e1
      subst e2
      simp [List.lookup]
    · have hk : s ≠ k := by
        intro he
        subst he
        have : s ∈ rest.map Prod.fst :=
          List.mem_map.mpr ⟨(s, b), hm, rfl⟩
        exact (List.nodup_cons.mp (by simpa using hnd)).1 this
      have hks : (s == k) = false := by simp [hk]
      simp only [List.lookup, hks]
      exact ih (List.nodup_cons.mp (by simpa using hnd)).2 hm

theorem pair_mem_storeMap {items : List PantryItem} {s : String}
    {b : List PantryItem} (h : (s, b) ∈ storeMap items) :
    b = items.filter (storeQualifies s) := by
  have hl := mem_pair_lookup (keys_nodup_storeMap items) h
  have h2 := bucketOf_storeMap items s
  unfold bucketOf at h2
  rw [hl] at h2
  exact h2

theorem keys_mono_storeStep {gs : List (String × List PantryItem)}
    {it : PantryItem} {x : String} (hx : x ∈ gs.map Prod.fst) :
    x ∈ (storeStep gs it).map Prod.fst := by
  cases hpr : it.prices with
  | nil => simpa [storeStep, hpr] using hx
  | cons p ps =>
    simp only [storeStep, hpr]
    have hm1 : x ∈ ((if (gs.lookup p.store).isSome then gs
        else gs ++ [(p.store, [])]).map Prod.fst) := by
      split
      · exact hx
      · rw [List.map_append]
        exact List.mem_append_left _ hx
    split
    · exact keys_mono_addToBucket _ _ _ hm1
    · exact hm1

theorem store_mem_keys_storeStep (gs : List (String × List PantryItem))
    {it : PantryItem} {p : PriceInfo} {ps : List PriceInfo}
    (hpr : it.prices = p :: ps) :
    p.store ∈ (storeStep gs it).map Prod.fst := by
  simp only [storeStep, hpr]
  have hm1 : p.store ∈ ((if (gs.lookup p.store).isSome then gs
      else gs ++ [(p.store, [])]).map Prod.fst) := by
    split
    · rename_i hsome
      cases h2 : gs.lookup p.store with
      | none => rw [h2] at hsome; exact absurd hsome (by simp)
      | some c =>
        by_contra hmem
        rw [(lookup_eq_none_iff gs p.store).mpr hmem] at h2
        exact absurd h2 (by simp)
    · rw [List.map_append]
      exact List.mem_append_right _ (by simp)
  split
  · exact keys_mono_addToBucket _ _ _ hm1
  · exact hm1

theorem keys_mono_storeFold (items : List PantryItem) :
    ∀ (gs : List (String × List PantryItem)) {x : String},
      x ∈ gs.map Prod.fst → x ∈ ((items.foldl storeStep gs).map Prod.fst) := by
  induction items with
  | nil => intro gs x hx; exact hx
  | cons it rest ih =>
    intro gs x hx
    simp only [List.foldl_cons]
    exact ih _ (keys_mono_storeStep hx)

theorem store_mem_keys_storeMap {items : List PantryItem} {it : PantryItem}
    {p : PriceInfo} {ps : List PriceInfo} (hit : it ∈ items)
    (hpr : it.prices = p :: ps) :
    p.store ∈ (storeMap items).map Prod.fst := by
  unfold storeMap
  have haux : ∀ (items2 : List PantryItem) (gs : List (String × List PantryItem)),
      it ∈ items2 → p.store ∈ ((items2.foldl storeStep gs).map Prod.fst) := by
    intro items2
    induction items2 with
    | nil => intro gs h; exact absurd h (List.not_mem_nil _)
    | cons j rest ih =>
      intro gs hj
      simp only [List.foldl_cons]
      rcases List.mem_cons.mp hj with rfl | hm
      · exact keys_mono_storeFold rest _ (store_mem_keys_storeStep gs hpr)
      · exact ih _ hm
  exact haux items [] hit

/-- C6: `organizeByStore` partitions items by the store named in each item's
first price observation (items lacking any price observation appear in no
route), excludes non-positive-quantity items, sums the filtered quantities
into `totalItems`, omits stores with no qualifying items, and returns the
routes sorted descending by `totalItems` by a stable sort over the
store-insertion order, so ties keep that order. -/
theorem organizeByStore_spec :
    ∀ items : List PantryItem,
      List.Perm (organizeByStore items) (routesPre items)
      ∧ List.Pairwise (fun a b => b.totalItems ≤ a.totalItems)
          (organizeByStore items)
      ∧ (∀ t : ℚ, (organizeByStore items).filter (fun r => r.totalItems == t)
          = (routesPre items).filter (fun r => r.totalItems == t))
      ∧ (∀ r ∈ organizeByStore items,
          r.items = items.filter (storeQualifies r.store)
          ∧ r.items ≠ []
          ∧ r.totalItems = (r.items.map (fun it => it.quantity)).sum
          ∧ r.optimizedPath = optimizeRoute r.items)
      ∧ (∀ it ∈ items, it.prices = [] →
          ∀ r ∈ organizeByStore items, it ∉ r.items)
      ∧ (∀ it ∈ items, ∀ p ps, it.prices = p :: ps → it.quantity > 0 →
          ∃ r ∈ organizeByStore items, r.store = p.store ∧ it ∈ r.items) := by
  intro items
  have hperm : List.Perm (organizeByStore items) (routesPre items) :=
    sortBy_perm _ _
  have hchar : ∀ r ∈ routesPre items,
      r.items = items.filter (storeQualifies r.store)
      ∧ r.items ≠ []
      ∧ r.totalItems = (r.items.map (fun it => it.quantity)).sum
      ∧ r.optimizedPath = optimizeRoute r.items := by
    intro r hr2
    unfold routesPre at hr2
    rcases List.mem_filterMap.mp hr2 with ⟨⟨s, b⟩, hsb, hmk⟩
    by_cases hlen : b.length > 0
    · rw [if_pos hlen, Option.some.injEq] at hmk
      subst hmk
      have hb : b = items.filter (storeQualifies s) := pair_mem_storeMap hsb
      exact ⟨hb, List.ne_nil_of_length_pos hlen, rfl, rfl⟩
    · rw [if_neg hlen] at hmk
      exact absurd hmk (by simp)
  refine ⟨hperm, ?_, ?_, ?_, ?_, ?_⟩
  · have h := sortBy_pairwise routeLe_total routeLe_trans (routesPre items)
    refine h.imp ?_
    intro a b hab
    simpa [routeLe] using hab
  · intro t
    apply filter_sortBy
    intro x y hx hy
    rw [beq_iff_eq] at hx hy
    simp [routeLe, hx, hy]
  · intro r hr
    exact hchar r (hperm.mem_iff.mp hr)
  · intro it hit hpr r hr hmem
    have h : r.items = items.filter (storeQualifies r.store) :=
      (hchar r (hperm.mem_iff.mp hr)).1
    rw [h] at hmem
    rcases List.mem_filter.mp hmem with ⟨_, hq⟩
    rw [storeQualifies, hpr] at hq
    exact absurd hq (by simp)
  · intro it hit p ps hpr hq
    have hkey := store_mem_keys_storeMap hit hpr
    rcases List.mem_map.mp hkey with ⟨⟨s, b⟩, hsb, hfst⟩
    have hb : b = items.filter (storeQualifies s) := pair_mem_storeMap hsb
    have hql : storeQualifies s it = true := by
      rw [storeQualifies, hpr]
      have h1 : (p.store == s) = true := by
        rw [beq_iff_eq]
        exact hfst.symm
      simp [h1, hq]
    have hitb : it ∈ b := by
      rw [hb]
      exact List.mem_filter.mpr ⟨hit, hql⟩
    have hlen : b.length > 0 := List.length_pos_of_mem hitb
    refine ⟨StoreRoute.mk s b (optimizeRoute b)
      ((b.map (fun it => it.quantity)).sum), ?_, ?_, hitb⟩
    · apply hperm.mem_iff.mpr
      unfold routesPre
      apply List.mem_filterMap.mpr
      exact ⟨(s, b), hsb, by rw [if_pos hlen]⟩
    · exact hfst

/-- Items of the spec's route scenario: store "X", aisles 12/3/7 with
quantities 1/0/2. -/
def priceX : PriceInfo :=
  { store := "X", price := 1, distance := 0, address := "", timestamp := 0 }

def itemA12 : PantryItem :=
  { id := "a", barcode := "a", name := "A", quantity := 1, dateAdded := 0,
    image := "", prices := [priceX], aisle := some "12" }

def itemB3 : PantryItem :=
  { id := "b", barcode := "b", name := "B", quantity := 0, dateAdded := 0,
    image := "", prices := [priceX], aisle := some "3" }

def itemC7 : PantryItem :=
  { id := "c", barcode := "c", name := "C", quantity := 2, dateAdded := 0,
    image := "", prices := [priceX], aisle := some "7" }

theorem organizeByStore_spec_witness :
    ∃ r ∈ organizeByStore [itemA12, itemB3, itemC7],
      r.store = "X" ∧ itemA12 ∈ r.items :=
  (organizeByStore_spec [itemA12, itemB3, itemC7]).2.2.2.2.2 itemA12
    (by decide) priceX [] rfl (by decide)

end SmartAisle
